import Mathlib

/-!
# Google Pub/Sub stream manager (`services/streammanager/googlepubsub`)

A shallow embedding of `googlepubsubmanager.go`: the producer lifecycle
(`NewProducer`, `CloseProducer`), the publish operation (`Produce`) and the
error classifier (`getError`).

Modelling conventions.
* Go code that may panic returns `Run α`: either `ret a` or `panic msg`.
* A Go `error` is a `GoError`: the text of `err.Error()` together with the
  gRPC code `status.Code(err)` reports for it.
* Calls into libraries whose result depends on the outside world
  (`pubsub.NewClient`, `Topic.Publish` followed by `PublishResult.Get`,
  `Client.Close`) and the byte output of `json.Marshal` are fields of `Deps`.
* `Produce` returns, next to the triple of the Go function, the state of the
  producer handle after the call and the list of `Topic.Publish` calls made.
-/

namespace GooglePubSub

/-! ## Go runtime values -/

/-- Result of running Go code: a normal return or a run-time panic. -/
inductive Run (α : Type) where
  | ret (a : α)
  | panic (msg : String)
  deriving DecidableEq, Repr

/-- A Go `error`: `code` is what `status.Code(err)` returns (a `uint32`),
`text` is `err.Error()`. -/
structure GoError where
  code : Nat
  text : String
  deriving DecidableEq, Repr

deriving instance DecidableEq for Except

/-- A `[]byte`. -/
abbrev Bytes := List Nat

/-! ## `google.golang.org/grpc/codes` -/

namespace codes

def OK : Nat := 0
def Canceled : Nat := 1
def Unknown : Nat := 2
def InvalidArgument : Nat := 3
def DeadlineExceeded : Nat := 4
def NotFound : Nat := 5
def AlreadyExists : Nat := 6
def PermissionDenied : Nat := 7
def ResourceExhausted : Nat := 8
def FailedPrecondition : Nat := 9
def Aborted : Nat := 10
def OutOfRange : Nat := 11
def Unimplemented : Nat := 12
def Internal : Nat := 13
def Unavailable : Nat := 14
def DataLoss : Nat := 15
def Unauthenticated : Nat := 16

end codes

/-- An error that is not a gRPC status (made by `fmt.Errorf`, or returned by
`encoding/json`): `status.Code` reports `Unknown` for it. -/
def Errorf (text : String) : GoError := { code := codes.Unknown, text := text }

/-- The 16 error kinds of the classification table, as gRPC codes. -/
def tabledCodes : List Nat :=
  [codes.Canceled, codes.Unknown, codes.InvalidArgument, codes.FailedPrecondition,
   codes.Aborted, codes.OutOfRange, codes.Unimplemented, codes.DataLoss,
   codes.DeadlineExceeded, codes.NotFound, codes.AlreadyExists, codes.PermissionDenied,
   codes.ResourceExhausted, codes.Internal, codes.Unavailable, codes.Unauthenticated]

/-- The code the classification table of the specification gives to a kind. -/
def tableCode (c : Nat) : Int :=
  if c = codes.Canceled then 499
  else if c = codes.DeadlineExceeded then 504
  else if c = codes.NotFound then 404
  else if c = codes.AlreadyExists then 409
  else if c = codes.PermissionDenied then 403
  else if c = codes.ResourceExhausted then 429
  else if c = codes.Internal then 500
  else if c = codes.Unavailable then 503
  else if c = codes.Unauthenticated then 401
  else 400

/-- `getError` (lines 148-191). The named result `statusCode` starts at the
zero value of `int`. A Go `switch` runs the body of the first matching `case`
and does not fall through: the bodies of `Unknown`, `InvalidArgument`,
`FailedPrecondition`, `Aborted`, `OutOfRange` and `Unimplemented` are empty, so
`statusCode` keeps its zero value there. -/
def getError (err : GoError) : Int :=
  let statusCode : Int := 0
  let c := err.code
  if c = codes.Canceled then 499
  else if c = codes.Unknown then statusCode
  else if c = codes.InvalidArgument then statusCode
  else if c = codes.FailedPrecondition then statusCode
  else if c = codes.Aborted then statusCode
  else if c = codes.OutOfRange then statusCode
  else if c = codes.Unimplemented then statusCode
  else if c = codes.DataLoss then 400
  else if c = codes.DeadlineExceeded then 504
  else if c = codes.NotFound then 404
  else if c = codes.AlreadyExists then 409
  else if c = codes.PermissionDenied then 403
  else if c = codes.ResourceExhausted then 429
  else if c = codes.Internal then 500
  else if c = codes.Unavailable then 503
  else if c = codes.Unauthenticated then 401
  else 400

/-! ## `strings.Split` -/

/-- Splitting a character list at every occurrence of `sep`: the segments
between separators, in order (always at least one segment). -/
def splitChars (sep : Char) : List Char → List (List Char)
  | [] => [[]]
  | c :: cs =>
    if c = sep then [] :: splitChars sep cs
    else ((splitChars sep cs).headD [] |>.cons c) :: (splitChars sep cs).tail

/-- `strings.Split(s, sep)` for a one-character separator. -/
def stringsSplit (s : String) (sep : Char) : List String :=
  (splitChars sep s.data).map String.mk

/-! ## `cloud.google.com/go/pubsub` -/

/-- A `pubsub.Topic` object: its fully-qualified resource name and the
`PublishSettings.DelayThreshold` field (a `time.Duration`, in nanoseconds). -/
structure Topic where
  name : String
  DelayThreshold : Nat
  deriving DecidableEq, Repr

/-- `(*Topic).String()` returns the resource name. -/
def Topic.String (t : Topic) : String := t.name

/-- A `pubsub.Client` object: the project it is bound to and the delay
threshold of `pubsub.DefaultPublishSettings` its topics start with. -/
structure Client where
  projectID : String
  defaultDelay : Nat
  deriving DecidableEq, Repr

/-- `(*Client).Topic(id)`: a fresh topic handle named
`projects/<projectID>/topics/<id>`; no network round-trip, no validation. -/
def Client.Topic (c : Client) (id : String) : Topic :=
  { name := "projects/" ++ c.projectID ++ "/topics/" ++ id
    DelayThreshold := c.defaultDelay }

/-! ## Go maps and interface values -/

/-- A Go map with string keys, as an association list without duplicate keys
built through `GoMap.set`. -/
abbrev GoMap (β : Type) := List (String × β)

/-- Lookup `m[k]`, `none` when the key is absent. -/
def GoMap.get? {β : Type} (m : GoMap β) (k : String) : Option β :=
  match m with
  | [] => none
  | (k', v) :: rest => if k' = k then some v else GoMap.get? rest k

/-- Assignment `m[k] = v`. -/
def GoMap.set {β : Type} (m : GoMap β) (k : String) (v : β) : GoMap β :=
  match m with
  | [] => [(k, v)]
  | (k', v') :: rest => if k' = k then (k, v) :: rest else (k', v') :: GoMap.set rest k v

/-- The `interface{}` values stored in the maps of `EventToTopic`: the nil
interface, a `string`, a `*pubsub.Topic` (`none` is the nil pointer), or a
value of some other dynamic type. -/
inductive Iface where
  | nil
  | string (s : String)
  | topic (t : Option Topic)
  | other
  deriving DecidableEq, Repr

/-- `s[k]` on a `map[string]interface{}`: the nil interface when absent. -/
def ifaceAt (s : GoMap Iface) (k : String) : Iface := (GoMap.get? s k).getD Iface.nil

/-- `s[k]` on a `map[string]string`: the empty string when absent. -/
def stringAt (s : GoMap String) (k : String) : String := (GoMap.get? s k).getD ""

/-! ## The package's types -/

/-- `Config` (lines 17-21). -/
structure Config where
  Credentials : String
  ProjectId : String
  EventToTopicMap : List (GoMap String)
  deriving DecidableEq, Repr

/-- `pubsubClient` (lines 23-26). `Pbs` is a pointer: `none` is nil. Every
map of `EventToTopic` owns the topic object its `"topic"` entry points to. -/
structure pubsubClient where
  Pbs : Option Client
  EventToTopic : List (GoMap Iface)
  deriving DecidableEq, Repr

/-- The dynamic value of a `producer interface{}` argument: a `*pubsubClient`
(`none` is the typed nil pointer), a `*pubsub.Client`, or anything else
(the nil interface included). -/
inductive Handle where
  | pubsubClient (p : Option pubsubClient)
  | client (c : Option Client)
  | other
  deriving DecidableEq, Repr

/-! ## JSON documents and `github.com/tidwall/gjson` -/

/-- The `float64` that `strconv.ParseFloat` gives for a JSON number literal:
a finite value (kept as its literal), or an infinity when the literal is out
of range (such as `1e999`). -/
inductive Float64 where
  | finite (lit : String)
  | posInf
  | negInf
  deriving DecidableEq, Repr

/-- A well-formed JSON value. Object members are in document order, keys
unescaped. -/
inductive JSON where
  | null
  | bool (b : Bool)
  | num (f : Float64)
  | str (s : String)
  | arr (xs : List JSON)
  | obj (members : List (String × JSON))

/-- The event envelope `jsonData`, parsed by `gjson.ParseBytes`: a well-formed
JSON object, given by its members. Documents whose root is not an object are
outside the model. -/
abbrev Envelope := List (String × JSON)

/-- A `gjson.Result`: `none` when the path does not exist. -/
abbrev Result := Option JSON

/-- `parsedJSON.Get(key)` for a plain key: the first member with that key. -/
def Envelope.Get (parsedJSON : Envelope) (key : String) : Result :=
  match parsedJSON with
  | [] => none
  | (k, v) :: rest => if k = key then some v else Envelope.Get rest key

/-- The `interface{}` returned by `Result.Value()`: nil, `bool`, `float64`,
`string`, or the `[]interface{}` / `map[string]interface{}` that gjson builds
from the given elements. -/
inductive GoValue where
  | nil
  | bool (b : Bool)
  | float64 (f : Float64)
  | string (s : String)
  | slice (elems : List JSON)
  | map (members : List (String × JSON))

/-- `Result.Value()`: nil for a missing path and for JSON `null`. -/
def Result.Value : Result → GoValue
  | none => GoValue.nil
  | some JSON.null => GoValue.nil
  | some (JSON.bool b) => GoValue.bool b
  | some (JSON.num f) => GoValue.float64 f
  | some (JSON.str s) => GoValue.string s
  | some (JSON.arr xs) => GoValue.slice xs
  | some (JSON.obj ms) => GoValue.map ms

/-! ## The outside world -/

/-- Library calls whose result is not determined by the program text.
* `newClient projectId credentials`: `pubsub.NewClient`.
* `encodeScalar v`: the bytes `json.Marshal` gives for a nil, `bool`, `string`
  or finite `float64` value.
* `encodeComposite v`: the outcome of `json.Marshal` on a slice or map: bytes,
  or the error of an unsupported element.
* `publish t data`: `t.Publish(ctx, &pubsub.Message{Data: data})` followed by
  `result.Get(ctx)`: the server id or the error.
* `close c`: `c.Close()`, `none` for a nil error. -/
structure Deps where
  newClient : String → String → Except GoError Client
  encodeScalar : GoValue → Bytes
  encodeComposite : GoValue → Except GoError Bytes
  publish : Topic → Bytes → Except GoError String
  close : Client → Option GoError

/-- `json.Marshal(data)` on a value produced by `Result.Value()`. A non-finite
`float64` is rejected with an `UnsupportedValueError`; the other scalars always
encode. -/
def jsonMarshal (D : Deps) (data : GoValue) : Except GoError Bytes :=
  match data with
  | GoValue.float64 Float64.posInf =>
      Except.error (Errorf "json: unsupported value: +Inf")
  | GoValue.float64 Float64.negInf =>
      Except.error (Errorf "json: unsupported value: -Inf")
  | GoValue.slice xs => D.encodeComposite (GoValue.slice xs)
  | GoValue.map ms => D.encodeComposite (GoValue.map ms)
  | v => Except.ok (D.encodeScalar v)

/-! ## `NewProducer` -/

/-- What `json.Marshal(destinationConfig)` followed by
`json.Unmarshal(jsonConfig, &config)` (lines 32-39) make of the
`destinationConfig interface{}` argument. -/
inductive DestinationConfig where
  | marshalFails (err : GoError)
  | unmarshalFails (err : GoError)
  | decoded (config : Config)
  deriving DecidableEq, Repr

/-- The loop of lines 48-55: for every entry `s`, `client.Topic(s["to"])` and a
fresh map with the keys `"event"` and `"topic"`. `Topic` is a method on a
pointer receiver that reads `c.projectID`: on a nil client it panics. -/
def bindTopics (client : Option Client) : List (GoMap String) → Run (List (GoMap Iface))
  | [] => Run.ret []
  | s :: rest =>
    match client with
    | none => Run.panic "invalid memory address or nil pointer dereference"
    | some c =>
      let topic := c.Topic (stringAt s "to")
      let m : GoMap Iface := GoMap.set (GoMap.set [] "event" (Iface.string (stringAt s "from")))
        "topic" (Iface.topic (some topic))
      match bindTopics client rest with
      | Run.ret ms => Run.ret (m :: ms)
      | Run.panic msg => Run.panic msg

/-- `NewProducer` (lines 29-59). The result is the Go pair
`(*pubsubClient, error)`: `Except.error e` is `(nil, e)`, `Except.ok p` is
`(&p, nil)`. -/
def NewProducer (D : Deps) (destinationConfig : DestinationConfig) :
    Run (Except GoError pubsubClient) :=
  match destinationConfig with
  | DestinationConfig.marshalFails err =>
      Run.ret (Except.error (Errorf
        ("[GooglePubSub] Error while marshalling destination config :: " ++ err.text)))
  | DestinationConfig.unmarshalFails err =>
      Run.ret (Except.error (Errorf
        ("[GooglePubSub] error  :: error in GooglePubSub while unmarshelling destination config:: "
          ++ err.text)))
  | DestinationConfig.decoded config =>
      -- `var client *pubsub.Client`; `err` is nil after the unmarshal
      let r : Except GoError (Option Client) :=
        if config.Credentials ≠ "" ∧ config.ProjectId ≠ "" then
          match D.newClient config.ProjectId config.Credentials with
          | Except.ok c => Except.ok (some c)
          | Except.error e => Except.error e
        else Except.ok none
      match r with
      | Except.error err => Run.ret (Except.error err)
      | Except.ok client =>
        match bindTopics client config.EventToTopicMap with
        | Run.panic msg => Run.panic msg
        | Run.ret eventToTopic => Run.ret (Except.ok { Pbs := client, EventToTopic := eventToTopic })

/-! ## `Produce` -/

/-- What a call of `Produce` leaves behind: the returned triple, the producer
handle after the call, and the `Topic.Publish` calls made, in order. -/
structure Outcome where
  statusCode : Int
  respStatus : String
  responseMessage : String
  producer : Handle
  published : List (Topic × Bytes)
  deriving DecidableEq, Repr

/-- The triple `(statusCode, respStatus, responseMessage)` of an outcome. -/
def Outcome.triple (o : Outcome) : Int × String × String :=
  (o.statusCode, o.respStatus, o.responseMessage)

/-- An outcome that returns a triple without touching the producer or publishing. -/
def Outcome.fail (producer : Handle) (statusCode : Int) (respStatus responseMessage : String) :
    Outcome :=
  { statusCode := statusCode, respStatus := respStatus, responseMessage := responseMessage
    producer := producer, published := [] }

/-- The topic search of lines 100-108, from binding number `i` on: the index
and the topic of the first binding whose resource name has `topicIdString` as
element 3 of its split at `/`. The unchecked type assertion, `t.String()` on a
nil pointer and the index expression `splitString[3]` can each panic. -/
def topicSearch (topicIdString : String) : List (GoMap Iface) → Nat → Run (Option (Nat × Topic))
  | [], _ => Run.ret none
  | s :: rest, i =>
    match ifaceAt s "topic" with
    | Iface.topic (some t) =>
      let splitString := stringsSplit t.String '/'
      match splitString.get? 3 with
      | none => Run.panic "index out of range [3]"
      | some seg =>
        if seg = topicIdString then Run.ret (some (i, t))
        else topicSearch topicIdString rest (i + 1)
    | Iface.topic none => Run.panic "invalid memory address or nil pointer dereference"
    | _ => Run.panic "interface conversion: interface \x7b\x7d is not *pubsub.Topic"

/-- The write `topic.PublishSettings.DelayThreshold = 0` (line 115) through the
pointer held by binding number `i`. -/
def setDelayAt (d : Nat) : List (GoMap Iface) → Nat → List (GoMap Iface)
  | [], _ => []
  | s :: rest, 0 =>
    match ifaceAt s "topic" with
    | Iface.topic (some t) => GoMap.set s "topic" (Iface.topic (some { t with DelayThreshold := d })) :: rest
    | _ => s :: rest
  | s :: rest, i + 1 => s :: setDelayAt d rest i

/-- `Produce` (lines 60-133); `destConfig` is not used by the function and is
left out. -/
def Produce (D : Deps) (jsonData : Envelope) (producer : Handle) : Run Outcome :=
  let parsedJSON := jsonData
  match producer with
  | Handle.pubsubClient pbs =>
    match (parsedJSON.Get "message").Value with
    | GoValue.nil =>
      Run.ret (Outcome.fail producer 400 "Failure"
        "[GooglePubSub] error :: message from payload not found")
    | data =>
      match jsonMarshal D data with
      | Except.error err =>
        Run.ret (Outcome.fail producer 400 "Failure" ("[GooglePubSub] error  :: " ++ err.text))
      | Except.ok value =>
        match (parsedJSON.Get "topicId").Value with
        | GoValue.nil =>
          Run.ret (Outcome.fail producer 400 "Failure" "[GooglePubSub] error  :: Topic Id not found")
        | GoValue.string topicIdString =>
          if topicIdString = "" then
            Run.ret (Outcome.fail producer 400 "Failure"
              "[GooglePubSub] error :: empty topic id string")
          else
            match pbs with
            | none => Run.panic "invalid memory address or nil pointer dereference"
            | some pbs =>
              match topicSearch topicIdString pbs.EventToTopic 0 with
              | Run.panic msg => Run.panic msg
              | Run.ret none =>
                Run.ret (Outcome.fail producer 400 "Failure"
                  "[GooglePubSub] error :: Topic not found in project")
              | Run.ret (some (i, t)) =>
                let topic : Topic := { t with DelayThreshold := 0 }
                let producer := Handle.pubsubClient
                  (some { pbs with EventToTopic := setDelayAt 0 pbs.EventToTopic i })
                match D.publish topic value with
                | Except.error err =>
                  Run.ret { statusCode := getError err, respStatus := "Failure"
                            responseMessage := "[GooglePubSub] error :: Failed to publish:" ++ err.text
                            producer := producer, published := [(topic, value)] }
                | Except.ok serverID =>
                  Run.ret { statusCode := 200, respStatus := "Success"
                            responseMessage := "Message publish with serverID" ++ serverID
                            producer := producer, published := [(topic, value)] }
        | _ =>
          Run.ret (Outcome.fail producer 400 "Failure"
            "[GooglePubSub] error :: Could not parse topic id to string")
  | _ =>
    Run.ret (Outcome.fail producer 400 "Failure" "[GooglePubSub] error :: Could not create producer")

/-! ## `CloseProducer` -/

/-- `CloseProducer` (lines 136-147): the returned `error` (`none` is nil) and
the clients on which `Close` was called. The type assertion is to
`*pubsub.Client`; `Close` on a nil client dereferences it. -/
def CloseProducer (D : Deps) (producer : Handle) : Run (Option GoError × List Client) :=
  match producer with
  | Handle.client (some pbs) => Run.ret (D.close pbs, [pbs])
  | Handle.client none => Run.panic "invalid memory address or nil pointer dereference"
  | _ => Run.ret (some (Errorf "error while closing producer"), [])

/-! ## A reference environment -/

/-- An environment in which every library call succeeds: the client is bound
to the requested project, serialisation gives some bytes, every publish is
acknowledged with server id `"1"`, closing returns nil. -/
def okDeps : Deps where
  newClient := fun projectId _ => Except.ok { projectID := projectId, defaultDelay := 10000000 }
  encodeScalar := fun _ => [110, 117, 108, 108]
  encodeComposite := fun _ => Except.ok [123, 125]
  publish := fun _ _ => Except.ok "1"
  close := fun _ => none

/-- An environment like `okDeps` whose server answers every publish with a
`ResourceExhausted` status. -/
def busyDeps : Deps :=
  { okDeps with
    publish := fun _ _ => Except.error { code := codes.ResourceExhausted, text := "quota exceeded" } }

/-! ## Helpers for the statements -/

/-- The map `NewProducer` builds for the entry `s` on the client `c`. -/
def binding (c : Client) (s : GoMap String) : GoMap Iface :=
  [("event", Iface.string (stringAt s "from")), ("topic", Iface.topic (some (c.Topic (stringAt s "to"))))]

/-- The text `s` contains the text `sub`. -/
def containsText (s sub : String) : Prop := sub.data <:+: s.data

instance (s sub : String) : Decidable (containsText s sub) := by
  unfold containsText; infer_instance

/-- A producer on which the topic search cannot panic: every binding holds a
non-nil topic whose resource name splits into at least 4 segments. -/
def WellBound (p : pubsubClient) : Prop :=
  ∀ s ∈ p.EventToTopic, ∃ t, ifaceAt s "topic" = Iface.topic (some t) ∧
    4 ≤ (stringsSplit t.String '/').length

/-! ## Sample inputs -/

/-- Configuration with one entry, event `e` to topic `orders`. -/
def ordersConfig : Config :=
  { Credentials := "key", ProjectId := "p", EventToTopicMap := [[("from", "e"), ("to", "orders")]] }

/-- The producer `NewProducer okDeps` builds from `ordersConfig`. -/
def ordersProducer : pubsubClient :=
  { Pbs := some { projectID := "p", defaultDelay := 10000000 }
    EventToTopic := [[("event", Iface.string "e"),
      ("topic", Iface.topic (some { name := "projects/p/topics/orders", DelayThreshold := 10000000 }))]] }

/-- `ordersProducer` after a publish: the delay threshold of its topic is 0. -/
def ordersProducerUsed : pubsubClient :=
  { Pbs := some { projectID := "p", defaultDelay := 10000000 }
    EventToTopic := [[("event", Iface.string "e"),
      ("topic", Iface.topic (some { name := "projects/p/topics/orders", DelayThreshold := 0 }))]] }

/-- The envelope `{"message": {"x": 1}, "topicId": "orders"}`. -/
def ordersEnvelope : Envelope :=
  [("message", JSON.obj [("x", JSON.num (Float64.finite "1"))]), ("topicId", JSON.str "orders")]

/-- The envelope `{"message": 1e999, "topicId": ""}`: the number literal is out
of the `float64` range, so gjson hands `+Inf` to the caller. -/
def infEnvelope : Envelope :=
  [("message", JSON.num Float64.posInf), ("topicId", JSON.str "")]

/-- A `pubsubClient` assembled by hand: its only binding has no `"topic"` key. -/
def bareProducer : pubsubClient :=
  { Pbs := some { projectID := "p", defaultDelay := 10000000 }
    EventToTopic := [[("event", Iface.string "e")]] }

/-- Configuration whose only topic name, `a/b`, contains a `/`. -/
def slashConfig : Config :=
  { Credentials := "key", ProjectId := "p", EventToTopicMap := [[("from", "e"), ("to", "a/b")]] }

/-- The producer `NewProducer okDeps` builds from `slashConfig`. -/
def slashProducer : pubsubClient :=
  { Pbs := some { projectID := "p", defaultDelay := 10000000 }
    EventToTopic := [[("event", Iface.string "e"),
      ("topic", Iface.topic (some { name := "projects/p/topics/a/b", DelayThreshold := 10000000 }))]] }

/-- `slashProducer` after a publish. -/
def slashProducerUsed : pubsubClient :=
  { Pbs := some { projectID := "p", defaultDelay := 10000000 }
    EventToTopic := [[("event", Iface.string "e"),
      ("topic", Iface.topic (some { name := "projects/p/topics/a/b", DelayThreshold := 0 }))]] }

/-! ## Helpers for the statements on the topic search and on effects -/

/-- Specification of the topic search ("first match by list order wins"):
binding number `i` of `l` holds the topic `t`, element 3 of the split of `t`'s
resource name at `/` is `tid`, and no binding before `i` holds a topic of which
element 3 is `tid`. -/
def IsFirstMatch (tid : String) (l : List (GoMap Iface)) (i : Nat) (t : Topic) : Prop :=
  (∃ s, l.get? i = some s ∧ ifaceAt s "topic" = Iface.topic (some t)) ∧
  (stringsSplit t.String '/').get? 3 = some tid ∧
  ∀ j, j < i → ∀ s u, l.get? j = some s → ifaceAt s "topic" = Iface.topic (some u) →
    (stringsSplit u.String '/').get? 3 ≠ some tid

/-- The `Topic.Publish` calls made by a run of `Produce`; a run that panics
does so before reaching line 116 and has made none. -/
def publishedBy : Run Outcome → List (Topic × Bytes)
  | Run.ret o => o.published
  | Run.panic _ => []

/-- Configuration with two entries for the same topic `orders`. -/
def twinConfig : Config :=
  { Credentials := "key", ProjectId := "p"
    EventToTopicMap := [[("from", "e1"), ("to", "orders")], [("from", "e2"), ("to", "orders")]] }

/-- The producer `NewProducer okDeps` builds from `twinConfig`. -/
def twinProducer : pubsubClient :=
  { Pbs := some { projectID := "p", defaultDelay := 10000000 }
    EventToTopic :=
      [[("event", Iface.string "e1"),
        ("topic", Iface.topic (some { name := "projects/p/topics/orders", DelayThreshold := 10000000 }))],
       [("event", Iface.string "e2"),
        ("topic", Iface.topic (some { name := "projects/p/topics/orders", DelayThreshold := 10000000 }))]] }

/-- `twinProducer` after a publish to `orders`: only the topic of binding 0 has
its delay threshold at 0. -/
def twinProducerUsed : pubsubClient :=
  { Pbs := some { projectID := "p", defaultDelay := 10000000 }
    EventToTopic :=
      [[("event", Iface.string "e1"),
        ("topic", Iface.topic (some { name := "projects/p/topics/orders", DelayThreshold := 0 }))],
       [("event", Iface.string "e2"),
        ("topic", Iface.topic (some { name := "projects/p/topics/orders", DelayThreshold := 10000000 }))]] }

/-- The envelope `{"message": {}, "topicId": null}`. -/
def nullTopicEnvelope : Envelope := [("message", JSON.obj []), ("topicId", JSON.null)]

/-- The envelope `{"message": {}, "topicId": 7}`. -/
def numberTopicEnvelope : Envelope :=
  [("message", JSON.obj []), ("topicId", JSON.num (Float64.finite "7"))]

/-- The envelope `{"message": {}}`. -/
def noTopicEnvelope : Envelope := [("message", JSON.obj [])]

/-- The envelope `{"message": 1e999}`. -/
def infNoTopicEnvelope : Envelope := [("message", JSON.num Float64.posInf)]

/-- The envelope `{"message": 1e999, "topicId": "orders"}`. -/
def infOrdersEnvelope : Envelope :=
  [("message", JSON.num Float64.posInf), ("topicId", JSON.str "orders")]

/-- What `Produce busyDeps` returns for `ordersEnvelope` on `ordersProducer`. -/
def ordersBusyOutcome : Outcome :=
  { statusCode := 429, respStatus := "Failure"
    responseMessage := "[GooglePubSub] error :: Failed to publish:quota exceeded"
    producer := Handle.pubsubClient (some ordersProducerUsed)
    published := [({ name := "projects/p/topics/orders", DelayThreshold := 0 }, [123, 125])] }

/-- What `Produce okDeps` returns for `ordersEnvelope` on `twinProducer`. -/
def twinOutcome : Outcome :=
  { statusCode := 200, respStatus := "Success"
    responseMessage := "Message publish with serverID1"
    producer := Handle.pubsubClient (some twinProducerUsed)
    published := [({ name := "projects/p/topics/orders", DelayThreshold := 0 }, [123, 125])] }

/-! ## Lemmas on splitting and topic names -/


theorem splitChars_ne_nil (sep : Char) (l : List Char) : splitChars sep l ≠ [] := by
  cases l with
  | nil => simp [splitChars]
  | cons c cs => simp only [splitChars]; split <;> simp

theorem splitChars_cons (sep c : Char) (cs : List Char) :
    splitChars sep (c :: cs) =
      if c = sep then [] :: splitChars sep cs
      else (c :: (splitChars sep cs).headD []) :: (splitChars sep cs).tail := rfl

theorem splitChars_of_not_mem (sep : Char) (l : List Char) (h : sep ∉ l) :
    splitChars sep l = [l] := by
  induction l with
  | nil => rfl
  | cons c cs ih =>
    have hc : c ≠ sep := fun e => h (by simp [e])
    have hcs : sep ∉ cs := fun e => h (by simp [e])
    simp [splitChars, hc, ih hcs]

theorem splitChars_append_sep (sep : Char) (a b : List Char) :
    splitChars sep (a ++ sep :: b) = splitChars sep a ++ splitChars sep b := by
  induction a with
  | nil => simp [splitChars]
  | cons c cs ih =>
    by_cases hc : c = sep
    · simp [splitChars, hc, ih]
    · have hne := splitChars_ne_nil sep cs
      rw [List.cons_append, splitChars_cons, if_neg hc, ih, splitChars_cons, if_neg hc]
      cases hs : splitChars sep cs with
      | nil => exact absurd hs hne
      | cons x xs => simp



theorem topic_name_data (c : Client) (id : String) :
    (c.Topic id).String.data =
      "projects".data ++ '/' :: (c.projectID.data ++ '/' :: ("topics".data ++ '/' :: id.data)) := by
  simp [Client.Topic, Topic.String, String.data_append]

theorem split_topic_name (c : Client) (id : String) :
    splitChars '/' (c.Topic id).String.data =
      "projects".data :: (splitChars '/' c.projectID.data ++
        "topics".data :: splitChars '/' id.data) := by
  rw [topic_name_data, splitChars_append_sep, splitChars_append_sep, splitChars_append_sep,
    splitChars_of_not_mem '/' "projects".data (by decide),
    splitChars_of_not_mem '/' "topics".data (by decide)]
  simp

theorem split_topic_name_length (c : Client) (id : String) :
    4 ≤ (stringsSplit (c.Topic id).String '/').length := by
  have h1 := splitChars_ne_nil '/' c.projectID.data
  have h2 := splitChars_ne_nil '/' id.data
  simp only [stringsSplit, List.length_map, split_topic_name, List.length_cons, List.length_append]
  have := List.length_pos.mpr h1
  have := List.length_pos.mpr h2
  omega

theorem split_topic_name_get3 (c : Client) (id : String) (hp : '/' ∉ c.projectID.data) :
    (stringsSplit (c.Topic id).String '/').get? 3 =
      some (String.mk ((splitChars '/' id.data).headD [])) := by
  have h2 := splitChars_ne_nil '/' id.data
  simp only [stringsSplit, split_topic_name, splitChars_of_not_mem '/' _ hp]
  cases hs : splitChars '/' id.data with
  | nil => exact absurd hs h2
  | cons x xs => simp

theorem split_topic_name_get3_plain (c : Client) (id : String) (hp : '/' ∉ c.projectID.data)
    (hid : '/' ∉ id.data) :
    (stringsSplit (c.Topic id).String '/').get? 3 = some id := by
  rw [split_topic_name_get3 c id hp, splitChars_of_not_mem '/' _ hid]
  rfl

/-! ## Lemmas on `NewProducer` and `Produce` -/

theorem bindTopics_some (c : Client) (l : List (GoMap String)) :
    bindTopics (some c) l = Run.ret (l.map (binding c)) := by
  induction l with
  | nil => rfl
  | cons s rest ih =>
    simp only [bindTopics, ih, List.map_cons]
    rfl

theorem bindTopics_none (l : List (GoMap String)) :
    bindTopics none l =
      if l = [] then Run.ret [] else Run.panic "invalid memory address or nil pointer dereference" := by
  cases l <;> simp [bindTopics]

/-- Unfolding of `Produce` on a non-nil producer once the envelope has passed
the payload and topic-id checks. -/
theorem produce_searches (D : Deps) (jsonData : Envelope) (pbs : pubsubClient) (value : Bytes)
    (tid : String)
    (hmsg : (jsonData.Get "message").Value ≠ GoValue.nil)
    (hmar : jsonMarshal D (jsonData.Get "message").Value = Except.ok value)
    (htid : (jsonData.Get "topicId").Value = GoValue.string tid) (hne : tid ≠ "") :
    Produce D jsonData (Handle.pubsubClient (some pbs)) =
      match topicSearch tid pbs.EventToTopic 0 with
      | Run.panic msg => Run.panic msg
      | Run.ret none =>
        Run.ret (Outcome.fail (Handle.pubsubClient (some pbs)) 400 "Failure"
          "[GooglePubSub] error :: Topic not found in project")
      | Run.ret (some (i, t)) =>
        match D.publish { t with DelayThreshold := 0 } value with
        | Except.error err =>
          Run.ret { statusCode := getError err, respStatus := "Failure"
                    responseMessage := "[GooglePubSub] error :: Failed to publish:" ++ err.text
                    producer := Handle.pubsubClient
                      (some { pbs with EventToTopic := setDelayAt 0 pbs.EventToTopic i })
                    published := [({ t with DelayThreshold := 0 }, value)] }
        | Except.ok serverID =>
          Run.ret { statusCode := 200, respStatus := "Success"
                    responseMessage := "Message publish with serverID" ++ serverID
                    producer := Handle.pubsubClient
                      (some { pbs with EventToTopic := setDelayAt 0 pbs.EventToTopic i })
                    published := [({ t with DelayThreshold := 0 }, value)] } := by
  unfold Produce
  simp only []
  generalize (jsonData.Get "message").Value = v at hmsg hmar
  cases v with
  | nil => exact absurd rfl hmsg
  | _ => simp only [hmar, htid, hne, if_false]

theorem value_nil_iff (r : Result) :
    r.Value = GoValue.nil ↔ r = none ∨ r = some JSON.null := by
  constructor
  · intro h
    match r, h with
    | none, _ => exact Or.inl rfl
    | some JSON.null, _ => exact Or.inr rfl
  · rintro (h | h) <;> subst h <;> rfl

theorem ifaceAt_binding (c : Client) (e : GoMap String) :
    ifaceAt (binding c e) "topic" = Iface.topic (some (c.Topic (stringAt e "to"))) := by
  simp [ifaceAt, binding, GoMap.get?]

theorem get?_set_same {β : Type} (m : GoMap β) (k : String) (v : β) :
    GoMap.get? (GoMap.set m k v) k = some v := by
  induction m with
  | nil => simp [GoMap.set, GoMap.get?]
  | cons kv rest ih =>
    obtain ⟨k1, v1⟩ := kv
    by_cases h : k1 = k
    · simp [GoMap.set, GoMap.get?, h]
    · simp [GoMap.set, GoMap.get?, h, ih]

theorem topicSearch_total (tid : String) (l : List (GoMap Iface)) (i : Nat)
    (h : ∀ s ∈ l, ∃ t, ifaceAt s "topic" = Iface.topic (some t) ∧
      4 ≤ (stringsSplit t.String '/').length) :
    ∃ r, topicSearch tid l i = Run.ret r := by
  induction l generalizing i with
  | nil => exact ⟨none, rfl⟩
  | cons s rest ih =>
    obtain ⟨t, ht, hlen⟩ := h s (List.mem_cons_self _ _)
    have hrest := fun j => ih j (fun s1 hs1 => h s1 (List.mem_cons_of_mem _ hs1))
    cases hg : (stringsSplit t.String '/').get? 3 with
    | none =>
      rw [List.get?_eq_none] at hg
      omega
    | some seg =>
      by_cases hseg : seg = tid
      · exact ⟨some (i, t), by simp only [topicSearch, ht, hg, hseg, if_true]⟩
      · obtain ⟨r, hr⟩ := hrest (i + 1)
        exact ⟨r, by simp only [topicSearch, ht, hg, hseg, if_false, hr]⟩

theorem topicSearch_none (tid : String) (l : List (GoMap Iface)) (i : Nat)
    (h : ∀ s ∈ l, ∃ t seg, ifaceAt s "topic" = Iface.topic (some t) ∧
      (stringsSplit t.String '/').get? 3 = some seg ∧ seg ≠ tid) :
    topicSearch tid l i = Run.ret none := by
  induction l generalizing i with
  | nil => rfl
  | cons s rest ih =>
    obtain ⟨t, seg, ht, hg, hseg⟩ := h s (List.mem_cons_self _ _)
    have hrest := ih (i + 1) (fun s1 hs1 => h s1 (List.mem_cons_of_mem _ hs1))
    simp only [topicSearch, ht, hg, hseg, if_false, hrest]

theorem topicSearch_some (tid : String) (l : List (GoMap Iface)) (i : Nat)
    (hall : ∀ s ∈ l, ∃ t, ifaceAt s "topic" = Iface.topic (some t) ∧
      4 ≤ (stringsSplit t.String '/').length)
    (hex : ∃ s ∈ l, ∃ t, ifaceAt s "topic" = Iface.topic (some t) ∧
      (stringsSplit t.String '/').get? 3 = some tid) :
    ∃ j t, topicSearch tid l i = Run.ret (some (j, t)) := by
  induction l generalizing i with
  | nil => obtain ⟨s, hs, _⟩ := hex; cases hs
  | cons s rest ih =>
    obtain ⟨t, ht, hlen⟩ := hall s (List.mem_cons_self _ _)
    cases hg : (stringsSplit t.String '/').get? 3 with
    | none =>
      rw [List.get?_eq_none] at hg
      omega
    | some seg =>
      by_cases hseg : seg = tid
      · exact ⟨i, t, by simp only [topicSearch, ht, hg, hseg, if_true]⟩
      · have hex1 : ∃ s ∈ rest, ∃ t, ifaceAt s "topic" = Iface.topic (some t) ∧
            (stringsSplit t.String '/').get? 3 = some tid := by
          obtain ⟨s1, hs1, t1, ht1, hg1⟩ := hex
          rcases List.mem_cons.mp hs1 with heq | hmem
          · subst heq
            rw [ht] at ht1
            cases ht1
            rw [hg] at hg1
            cases hg1
            exact absurd rfl hseg
          · exact ⟨s1, hmem, t1, ht1, hg1⟩
        obtain ⟨j, t1, hr⟩ := ih (i + 1) (fun s1 hs1 => hall s1 (List.mem_cons_of_mem _ hs1)) hex1
        exact ⟨j, t1, by simp only [topicSearch, ht, hg, hseg, if_false, hr]⟩

/-- What a successful `NewProducer` returns: a client with one binding per
configured entry, or, when no client was made, no client and no binding. -/
theorem newProducer_ok (D : Deps) (cfg : DestinationConfig) (p : pubsubClient)
    (h : NewProducer D cfg = Run.ret (Except.ok p)) :
    ∃ config, cfg = DestinationConfig.decoded config ∧
      ((∃ c, config.Credentials ≠ "" ∧ config.ProjectId ≠ "" ∧
          D.newClient config.ProjectId config.Credentials = Except.ok c ∧
          p = { Pbs := some c, EventToTopic := config.EventToTopicMap.map (binding c) }) ∨
       (¬ (config.Credentials ≠ "" ∧ config.ProjectId ≠ "") ∧ config.EventToTopicMap = [] ∧
          p = { Pbs := none, EventToTopic := [] })) := by
  cases cfg with
  | marshalFails err => simp [NewProducer] at h
  | unmarshalFails err => simp [NewProducer] at h
  | decoded config =>
    refine ⟨config, rfl, ?_⟩
    by_cases hc : config.Credentials ≠ "" ∧ config.ProjectId ≠ ""
    · left
      cases hn : D.newClient config.ProjectId config.Credentials with
      | error e =>
        unfold NewProducer at h
        simp only [] at h
        rw [if_pos hc, hn] at h
        cases h
      | ok c =>
        unfold NewProducer at h
        simp only [] at h
        rw [if_pos hc, hn] at h
        simp only [bindTopics_some] at h
        injection h with h
        injection h with h
        exact ⟨c, hc.1, hc.2, rfl, h.symm⟩
    · right
      unfold NewProducer at h
      simp only [] at h
      rw [if_neg hc] at h
      simp only [bindTopics_none] at h
      by_cases hl : config.EventToTopicMap = []
      · rw [if_pos hl] at h
        injection h with h
        injection h with h
        exact ⟨hc, hl, h.symm⟩
      · rw [if_neg hl] at h
        cases h

theorem newProducer_wellBound (D : Deps) (cfg : DestinationConfig) (p : pubsubClient)
    (h : NewProducer D cfg = Run.ret (Except.ok p)) : WellBound p := by
  obtain ⟨config, _, h1 | h2⟩ := newProducer_ok D cfg p h
  · obtain ⟨c, _, _, _, hp⟩ := h1
    subst hp
    intro s hs
    obtain ⟨e, _, he⟩ := List.mem_map.mp hs
    subst he
    exact ⟨_, ifaceAt_binding c e, split_topic_name_length c _⟩
  · obtain ⟨_, _, hp⟩ := h2
    subst hp
    intro s hs
    cases hs

/-! ## The claims -/

theorem setDelayAt_wellBound (d : Nat) (l : List (GoMap Iface)) (i : Nat)
    (h : ∀ s ∈ l, ∃ t, ifaceAt s "topic" = Iface.topic (some t) ∧
      4 ≤ (stringsSplit t.String '/').length) :
    ∀ s ∈ setDelayAt d l i, ∃ t, ifaceAt s "topic" = Iface.topic (some t) ∧
      4 ≤ (stringsSplit t.String '/').length := by
  induction l generalizing i with
  | nil => intro s hs; cases hs
  | cons s0 rest ih =>
    have hrest := fun s1 hs1 => h s1 (List.mem_cons_of_mem s0 hs1)
    obtain ⟨t, ht, hlen⟩ := h s0 (List.mem_cons_self _ _)
    cases i with
    | zero =>
      intro s hs
      simp only [setDelayAt, ht] at hs
      rcases List.mem_cons.mp hs with heq | hmem
      · subst heq
        exact ⟨{ t with DelayThreshold := d }, by simp [ifaceAt, get?_set_same], hlen⟩
      · exact hrest s hmem
    | succ j =>
      intro s hs
      simp only [setDelayAt] at hs
      rcases List.mem_cons.mp hs with heq | hmem
      · subst heq
        exact ⟨t, ht, hlen⟩
      · exact ih j hrest s hmem

/-- C1 (code defect): the `case` bodies of `Unknown`, `InvalidArgument`,
`FailedPrecondition`, `Aborted`, `OutOfRange` and `Unimplemented` are empty and
Go does not fall through, so `getError` returns 0 for each of them, where the
classification table says 400; the ten other kinds get the tabled code. -/
theorem getError_empty_cases (text : String) :
    getError ⟨codes.Unknown, text⟩ = 0 ∧ getError ⟨codes.InvalidArgument, text⟩ = 0 ∧
    getError ⟨codes.FailedPrecondition, text⟩ = 0 ∧ getError ⟨codes.Aborted, text⟩ = 0 ∧
    getError ⟨codes.OutOfRange, text⟩ = 0 ∧ getError ⟨codes.Unimplemented, text⟩ = 0 ∧
    tableCode codes.Unknown = 400 ∧
    (∀ c ∈ [codes.Canceled, codes.DataLoss, codes.DeadlineExceeded, codes.NotFound,
        codes.AlreadyExists, codes.PermissionDenied, codes.ResourceExhausted, codes.Internal,
        codes.Unavailable, codes.Unauthenticated], getError ⟨c, text⟩ = tableCode c) := by
  refine ⟨rfl, rfl, rfl, rfl, rfl, rfl, rfl, ?_⟩
  intro c hc
  simp only [List.mem_cons, List.mem_singleton, List.not_mem_nil, or_false] at hc
  rcases hc with h | h | h | h | h | h | h | h | h | h <;> subst h <;> rfl

/-- C2: for every error whose kind is not one of the 16 tabled kinds (`OK` and
every number above 16), `getError` returns 400. -/
theorem getError_unclassified (err : GoError) (h : err.code ∉ tabledCodes) :
    getError err = 400 := by
  simp only [tabledCodes, List.mem_cons, List.mem_singleton, List.not_mem_nil, or_false,
    not_or] at h
  obtain ⟨h1, h2, h3, h4, h5, h6, h7, h8, h9, h10, h11, h12, h13, h14, h15, h16⟩ := h
  simp only [getError, h1, h2, h3, h4, h5, h6, h7, h8, h9, h10, h11, h12, h13, h14, h15, h16,
    if_false]

/-- Witness for C2: the `OK` kind is not tabled and is mapped to 400. -/
theorem getError_unclassified_witness :
    codes.OK ∉ tabledCodes ∧ getError ⟨codes.OK, "ok"⟩ = 400 :=
  ⟨by decide, getError_unclassified ⟨codes.OK, "ok"⟩ (by decide)⟩

theorem append_ne_of_get? (a b x : String) (n : Nat) (hn : n < a.data.length)
    (h : a.data.get? n ≠ b.data.get? n) : a ++ x ≠ b := by
  intro heq
  apply h
  rw [← heq, String.data_append, List.get?_eq_getElem?, List.get?_eq_getElem?,
    List.getElem?_append_left hn]

theorem value_str (jsonData : Envelope) (key s : String)
    (h : jsonData.Get key = some (JSON.str s)) : (jsonData.Get key).Value = GoValue.string s := by
  rw [h]; rfl

/-- C3 (amended): for a producer built by `NewProducer` whose client's project
id contains no `/`, a configured topic name `T` that is non-empty and contains
no `/`, and an envelope whose non-null `message` serialises and whose `topicId`
is `T`: the topic search finds a binding, and if the publish to it is
acknowledged with server id `s` then `Produce` returns
`(200, "Success", "Message publish with serverID" ++ s)`; no outcome of it
carries the message "Topic not found in project". -/
theorem produce_success (D : Deps) (config : Config) (p : pubsubClient) (jsonData : Envelope)
    (T : String) (value : Bytes)
    (hnew : NewProducer D (DestinationConfig.decoded config) = Run.ret (Except.ok p))
    (hent : ∃ e ∈ config.EventToTopicMap, stringAt e "to" = T) (hT : T ≠ "")
    (hslashP : ∀ c, p.Pbs = some c → '/' ∉ c.projectID.data) (hslashT : '/' ∉ T.data)
    (hmsg : (jsonData.Get "message").Value ≠ GoValue.nil)
    (hmar : jsonMarshal D (jsonData.Get "message").Value = Except.ok value)
    (htid : jsonData.Get "topicId" = some (JSON.str T)) :
    (∃ i t, topicSearch T p.EventToTopic 0 = Run.ret (some (i, t)) ∧
      ∀ s, D.publish { t with DelayThreshold := 0 } value = Except.ok s →
        ∃ o, Produce D jsonData (Handle.pubsubClient (some p)) = Run.ret o ∧
          o.triple = (200, "Success", "Message publish with serverID" ++ s)) ∧
    (∀ o, Produce D jsonData (Handle.pubsubClient (some p)) = Run.ret o →
      o.responseMessage ≠ "[GooglePubSub] error :: Topic not found in project") := by
  have hwb := newProducer_wellBound D _ p hnew
  have hunf := produce_searches D jsonData p value T hmsg hmar (value_str _ _ _ htid) hT
  have hfound : ∃ i t, topicSearch T p.EventToTopic 0 = Run.ret (some (i, t)) := by
    apply topicSearch_some T p.EventToTopic 0 hwb
    obtain ⟨cfg, hcfg, h1 | h2⟩ := newProducer_ok D _ p hnew
    · cases hcfg
      obtain ⟨c, _, _, _, hp⟩ := h1
      obtain ⟨e, he, hto⟩ := hent
      refine ⟨binding c e, ?_, c.Topic (stringAt e "to"), ifaceAt_binding c e, ?_⟩
      · rw [hp]; exact List.mem_map_of_mem _ he
      · rw [hto]
        exact split_topic_name_get3_plain c T (hslashP c (by rw [hp])) hslashT
    · cases hcfg
      obtain ⟨e, he, _⟩ := hent
      rw [h2.2.1] at he
      cases he
  obtain ⟨i, t, hfind⟩ := hfound
  simp only [hfind] at hunf
  refine ⟨⟨i, t, hfind, ?_⟩, ?_⟩
  · intro s hs
    simp only [hs] at hunf
    exact ⟨_, hunf, rfl⟩
  · intro o ho
    rw [hunf] at ho
    cases hpub : D.publish { t with DelayThreshold := 0 } value with
    | error e =>
      simp only [hpub] at ho
      cases ho
      exact append_ne_of_get? _ _ _ 24 (by decide) (by decide)
    | ok s =>
      simp only [hpub] at ho
      cases ho
      exact append_ne_of_get? _ _ _ 0 (by decide) (by decide)

/-- Witness for C3: the producer built from `ordersConfig` and the envelope
`{"message": {"x": 1}, "topicId": "orders"}`. -/
theorem produce_success_witness :
    (∃ i t, topicSearch "orders" ordersProducer.EventToTopic 0 = Run.ret (some (i, t)) ∧
      ∀ s, okDeps.publish { t with DelayThreshold := 0 } [123, 125] = Except.ok s →
        ∃ o, Produce okDeps ordersEnvelope (Handle.pubsubClient (some ordersProducer)) = Run.ret o ∧
          o.triple = (200, "Success", "Message publish with serverID" ++ s)) ∧
    (∀ o, Produce okDeps ordersEnvelope (Handle.pubsubClient (some ordersProducer)) = Run.ret o →
      o.responseMessage ≠ "[GooglePubSub] error :: Topic not found in project") :=
  produce_success okDeps ordersConfig ordersProducer ordersEnvelope "orders" [123, 125]
    (by decide) (by decide) (by decide) (fun c hc => by cases hc; decide) (by decide)
    (fun h => by cases h) rfl rfl

/-- C3 (counterexample): the configured topic name `a/b` is non-empty, the
envelope carries a non-null `message` and `topicId` equal to `a/b`, every
publish would be acknowledged, and `Produce` returns "Topic not found in
project": element 3 of the split of `projects/p/topics/a/b` is `a`. -/
theorem produce_slash_topic_not_found :
    slashConfig.Credentials ≠ "" ∧ slashConfig.ProjectId ≠ "" ∧
    (∃ e ∈ slashConfig.EventToTopicMap, stringAt e "to" = "a/b") ∧
    NewProducer okDeps (DestinationConfig.decoded slashConfig) = Run.ret (Except.ok slashProducer) ∧
    (∀ t data, okDeps.publish t data = Except.ok "1") ∧
    Produce okDeps [("message", JSON.obj []), ("topicId", JSON.str "a/b")]
        (Handle.pubsubClient (some slashProducer)) =
      Run.ret (Outcome.fail (Handle.pubsubClient (some slashProducer)) 400 "Failure"
        "[GooglePubSub] error :: Topic not found in project") := by
  refine ⟨by decide, by decide, by decide, by decide, fun _ _ => rfl, by decide⟩

/-- C4: on a non-nil producer, for an envelope that passes validation (non-null
`message` that serialises, non-empty string `topicId`) and resolves a topic, if
the publish fails with error `e` then `Produce` returns
`(getError e, "Failure", "[GooglePubSub] error :: Failed to publish:" ++ e.text)`;
when `e` is `ResourceExhausted` the code is 429 and the status "Failure". -/
theorem produce_publish_failure (D : Deps) (jsonData : Envelope) (pbs : pubsubClient)
    (value : Bytes) (tid : String) (i : Nat) (t : Topic) (e : GoError)
    (hmsg : (jsonData.Get "message").Value ≠ GoValue.nil)
    (hmar : jsonMarshal D (jsonData.Get "message").Value = Except.ok value)
    (htid : jsonData.Get "topicId" = some (JSON.str tid)) (hne : tid ≠ "")
    (hfind : topicSearch tid pbs.EventToTopic 0 = Run.ret (some (i, t)))
    (hpub : D.publish { t with DelayThreshold := 0 } value = Except.error e) :
    ∃ o, Produce D jsonData (Handle.pubsubClient (some pbs)) = Run.ret o ∧
      o.triple = (getError e, "Failure", "[GooglePubSub] error :: Failed to publish:" ++ e.text) ∧
      (e.code = codes.ResourceExhausted → o.statusCode = 429 ∧ o.respStatus = "Failure") := by
  have hunf := produce_searches D jsonData pbs value tid hmsg hmar (value_str _ _ _ htid) hne
  simp only [hfind, hpub] at hunf
  refine ⟨_, hunf, rfl, ?_⟩
  intro hc
  refine ⟨?_, rfl⟩
  show getError e = 429
  simp [getError, hc, codes.ResourceExhausted, codes.Canceled, codes.Unknown,
    codes.InvalidArgument, codes.FailedPrecondition, codes.Aborted, codes.OutOfRange,
    codes.Unimplemented, codes.DataLoss, codes.DeadlineExceeded, codes.NotFound,
    codes.AlreadyExists, codes.PermissionDenied]

/-- Witness for C4: the server answers `ResourceExhausted` to the publish of
`ordersEnvelope`. -/
theorem produce_publish_failure_witness :
    ∃ o, Produce busyDeps ordersEnvelope (Handle.pubsubClient (some ordersProducer)) = Run.ret o ∧
      o.triple = (getError ⟨codes.ResourceExhausted, "quota exceeded"⟩, "Failure",
        "[GooglePubSub] error :: Failed to publish:" ++ "quota exceeded") ∧
      (codes.ResourceExhausted = codes.ResourceExhausted →
        o.statusCode = 429 ∧ o.respStatus = "Failure") :=
  produce_publish_failure busyDeps ordersEnvelope ordersProducer [123, 125] "orders" 0
    { name := "projects/p/topics/orders", DelayThreshold := 10000000 }
    ⟨codes.ResourceExhausted, "quota exceeded"⟩
    (fun h => by cases h) rfl rfl (by decide) (by decide) rfl

/-- C8: for every producer handle and every envelope without a `message` field or
with a null `message`, `Produce` returns code 400 and status "Failure", publishes
nothing and leaves the handle as it was; when the handle is a `*pubsubClient`
the message is "[GooglePubSub] error :: message from payload not found",
whatever the rest of the envelope. -/
theorem produce_message_missing (D : Deps) (jsonData : Envelope) (producer : Handle)
    (h : jsonData.Get "message" = none ∨ jsonData.Get "message" = some JSON.null) :
    ∃ o, Produce D jsonData producer = Run.ret o ∧ o.statusCode = 400 ∧
      o.respStatus = "Failure" ∧ o.published = [] ∧ o.producer = producer ∧
      (∀ pbs, producer = Handle.pubsubClient pbs →
        o.responseMessage = "[GooglePubSub] error :: message from payload not found") := by
  have hv : (jsonData.Get "message").Value = GoValue.nil := (value_nil_iff _).mpr h
  cases producer with
  | pubsubClient pbs =>
    refine ⟨Outcome.fail (Handle.pubsubClient pbs) 400 "Failure"
      "[GooglePubSub] error :: message from payload not found", ?_, rfl, rfl, rfl, rfl,
      fun _ _ => rfl⟩
    simp only [Produce, hv]
  | client c =>
    exact ⟨_, rfl, rfl, rfl, rfl, rfl, fun _ hp => by cases hp⟩
  | other =>
    exact ⟨_, rfl, rfl, rfl, rfl, rfl, fun _ hp => by cases hp⟩

/-- Witness for C8: the envelope `{"topicId": "orders"}` has no `message`. -/
theorem produce_message_missing_witness :
    ∃ o, Produce okDeps [("topicId", JSON.str "orders")]
        (Handle.pubsubClient (some ordersProducer)) = Run.ret o ∧ o.statusCode = 400 ∧
      o.respStatus = "Failure" ∧ o.published = [] ∧
      o.producer = Handle.pubsubClient (some ordersProducer) ∧
      (∀ pbs, Handle.pubsubClient (some ordersProducer) = Handle.pubsubClient pbs →
        o.responseMessage = "[GooglePubSub] error :: message from payload not found") :=
  produce_message_missing okDeps [("topicId", JSON.str "orders")]
    (Handle.pubsubClient (some ordersProducer)) (Or.inl rfl)

/-- C10 (amended): for every handle of type `*pubsubClient`, nil or not and
whatever its bindings, and every envelope whose non-null `message` serialises
and whose `topicId` is the empty string, `Produce` returns
`(400, "Failure", "[GooglePubSub] error :: empty topic id string")`. -/
theorem produce_empty_topic_id (D : Deps) (jsonData : Envelope) (pbs : Option pubsubClient)
    (value : Bytes)
    (hmsg : (jsonData.Get "message").Value ≠ GoValue.nil)
    (hmar : jsonMarshal D (jsonData.Get "message").Value = Except.ok value)
    (htid : jsonData.Get "topicId" = some (JSON.str "")) :
    Produce D jsonData (Handle.pubsubClient pbs) =
        Run.ret (Outcome.fail (Handle.pubsubClient pbs) 400 "Failure"
          "[GooglePubSub] error :: empty topic id string") ∧
      containsText "[GooglePubSub] error :: empty topic id string" "empty topic id string" := by
  refine ⟨?_, by decide⟩
  have hv := value_str _ _ _ htid
  unfold Produce
  simp only []
  generalize (jsonData.Get "message").Value = v at hmsg hmar
  cases v with
  | nil => exact absurd rfl hmsg
  | _ => simp only [hmar, hv, if_true]

/-- Witness for C10: the envelope `{"message": {}, "topicId": ""}` on a nil
producer. -/
theorem produce_empty_topic_id_witness :
    Produce okDeps [("message", JSON.obj []), ("topicId", JSON.str "")]
        (Handle.pubsubClient none) =
        Run.ret (Outcome.fail (Handle.pubsubClient none) 400 "Failure"
          "[GooglePubSub] error :: empty topic id string") ∧
      containsText "[GooglePubSub] error :: empty topic id string" "empty topic id string" :=
  produce_empty_topic_id okDeps [("message", JSON.obj []), ("topicId", JSON.str "")] none
    [123, 125] (fun h => by cases h) rfl rfl

/-- C10 (counterexample): the envelope `{"message": 1e999, "topicId": ""}` has a
non-null `message` (the `float64` +Inf) and an empty `topicId`; `json.Marshal`
rejects the value before the topic id is looked at, and the message returned
does not contain "empty topic id string". -/
theorem produce_empty_topic_id_unserialisable :
    infEnvelope.Get "message" = some (JSON.num Float64.posInf) ∧
    infEnvelope.Get "topicId" = some (JSON.str "") ∧
    Produce okDeps infEnvelope (Handle.pubsubClient (some ordersProducer)) =
      Run.ret (Outcome.fail (Handle.pubsubClient (some ordersProducer)) 400 "Failure"
        "[GooglePubSub] error  :: json: unsupported value: +Inf") ∧
    ¬ containsText "[GooglePubSub] error  :: json: unsupported value: +Inf"
        "empty topic id string" := by
  refine ⟨rfl, rfl, by decide, by decide⟩

/-- On a non-nil producer with well-formed bindings `Produce` returns, and the
producer it leaves is the same one or the same one with one delay threshold
set to 0. -/
theorem produce_returns (D : Deps) (jsonData : Envelope) (p : pubsubClient) (hwb : WellBound p) :
    ∃ o, Produce D jsonData (Handle.pubsubClient (some p)) = Run.ret o ∧
      (o.producer = Handle.pubsubClient (some p) ∨
       ∃ i, o.producer =
         Handle.pubsubClient (some { p with EventToTopic := setDelayAt 0 p.EventToTopic i })) := by
  have hts : ∀ tid, ∃ r, topicSearch tid p.EventToTopic 0 = Run.ret r :=
    fun tid => topicSearch_total tid _ 0 hwb
  unfold Produce
  simp only []
  repeat' split
  all_goals first
    | exact ⟨_, rfl, Or.inl rfl⟩
    | exact ⟨_, rfl, Or.inr ⟨_, rfl⟩⟩
    | (rename_i hpanic
       obtain ⟨r, hr⟩ := hts _
       rw [hr] at hpanic
       cases hpanic)

/-- C5 (amended): `Produce` returns an outcome and does not panic for every
envelope and every handle that is not a `*pubsubClient`, or is a non-nil
`*pubsubClient` each of whose bindings holds a non-nil topic with a resource
name of at least 4 `/`-segments; the handle it leaves is again of that kind.
Every producer returned by `NewProducer` is of that kind: for each of its
bindings the split has at least 4 segments, so index 3 is in range. -/
theorem produce_never_panics (D : Deps) (jsonData : Envelope) (producer : Handle)
    (h : ∀ q, producer = Handle.pubsubClient q → ∃ p, q = some p ∧ WellBound p) :
    (∃ o, Produce D jsonData producer = Run.ret o ∧
      ∀ q, o.producer = Handle.pubsubClient q → ∃ p, q = some p ∧ WellBound p) ∧
    (∀ cfg p, NewProducer D cfg = Run.ret (Except.ok p) →
      ∀ s ∈ p.EventToTopic, ∃ t, ifaceAt s "topic" = Iface.topic (some t) ∧
        4 ≤ (stringsSplit t.String '/').length) := by
  refine ⟨?_, fun cfg p hp => newProducer_wellBound D cfg p hp⟩
  cases producer with
  | pubsubClient q =>
    obtain ⟨p, hq, hwb⟩ := h q rfl
    subst hq
    obtain ⟨o, ho, hprod⟩ := produce_returns D jsonData p hwb
    refine ⟨o, ho, ?_⟩
    intro q hq
    rcases hprod with h1 | ⟨i, h2⟩
    · rw [h1] at hq
      cases hq
      exact ⟨p, rfl, hwb⟩
    · rw [h2] at hq
      cases hq
      exact ⟨_, rfl, setDelayAt_wellBound 0 p.EventToTopic i hwb⟩
  | client c => exact ⟨_, rfl, fun q hq => by cases hq⟩
  | other => exact ⟨_, rfl, fun q hq => by cases hq⟩

/-- Witness for C5: the producer built from `ordersConfig`. -/
theorem produce_never_panics_witness :
    (∃ o, Produce okDeps ordersEnvelope (Handle.pubsubClient (some ordersProducer)) = Run.ret o ∧
      ∀ q, o.producer = Handle.pubsubClient q → ∃ p, q = some p ∧ WellBound p) ∧
    (∀ cfg p, NewProducer okDeps cfg = Run.ret (Except.ok p) →
      ∀ s ∈ p.EventToTopic, ∃ t, ifaceAt s "topic" = Iface.topic (some t) ∧
        4 ≤ (stringsSplit t.String '/').length) :=
  produce_never_panics okDeps ordersEnvelope (Handle.pubsubClient (some ordersProducer))
    (fun q hq => ⟨ordersProducer, by cases hq; rfl,
      newProducer_wellBound okDeps (DestinationConfig.decoded ordersConfig) ordersProducer
        (by decide)⟩)

/-- C5 (counterexample): two handles of dynamic type `*pubsubClient` on which
`Produce` panics for the envelope `{"message": {"x": 1}, "topicId": "orders"}`.
A producer whose binding has no `"topic"` entry fails the unchecked type
assertion of the topic search; the nil `*pubsubClient` (what `NewProducer`
returns next to an error) passes the type assertion of line 62 and is
dereferenced by `pbs.EventToTopic`. -/
theorem produce_panics :
    Produce okDeps ordersEnvelope (Handle.pubsubClient (some bareProducer)) =
      Run.panic "interface conversion: interface \x7b\x7d is not *pubsub.Topic" ∧
    Produce okDeps ordersEnvelope (Handle.pubsubClient none) =
      Run.panic "invalid memory address or nil pointer dereference" := by
  decide

/-- C6 (code defect): with empty credentials (or an empty project id) and an
empty `eventToTopicMap`, `NewProducer` skips the client, finds `err` nil and
returns a producer with a nil client and no error; with a non-empty map it
panics in `client.Topic` on the nil client. In neither case does it return an
error. -/
theorem newProducer_missing_credentials (D : Deps) (projectId credentials : String)
    (s : GoMap String) (rest : List (GoMap String)) :
    NewProducer D (DestinationConfig.decoded ⟨"", projectId, []⟩) =
      Run.ret (Except.ok { Pbs := none, EventToTopic := [] }) ∧
    NewProducer D (DestinationConfig.decoded ⟨credentials, "", []⟩) =
      Run.ret (Except.ok { Pbs := none, EventToTopic := [] }) ∧
    NewProducer D (DestinationConfig.decoded ⟨"", projectId, s :: rest⟩) =
      Run.panic "invalid memory address or nil pointer dereference" ∧
    NewProducer D (DestinationConfig.decoded ⟨credentials, "", s :: rest⟩) =
      Run.panic "invalid memory address or nil pointer dereference" := by
  refine ⟨?_, ?_, ?_, ?_⟩ <;> simp [NewProducer, bindTopics]

/-- C7 (code defect): `CloseProducer` asserts the handle to `*pubsub.Client`,
but `NewProducer` returns a `*pubsubClient`: for every producer it returns the
"error while closing producer" error and `Close` is called on no client. -/
theorem closeProducer_rejects_producer (D : Deps) (p : Option pubsubClient) :
    CloseProducer D (Handle.pubsubClient p) =
      Run.ret (some (Errorf "error while closing producer"), []) := by
  rfl

/-- C9 (amended): for a producer built by `NewProducer` whose client's project
id and whose configured topic names contain no `/`, and an envelope whose
non-null `message` serialises and whose `topicId` is a non-empty string that
differs from every configured topic name, `Produce` returns
`(400, "Failure", "[GooglePubSub] error :: Topic not found in project")`,
publishes nothing and leaves the producer as it was. -/
theorem produce_topic_not_found (D : Deps) (config : Config) (p : pubsubClient)
    (jsonData : Envelope) (tid : String) (value : Bytes)
    (hnew : NewProducer D (DestinationConfig.decoded config) = Run.ret (Except.ok p))
    (hslashP : ∀ c, p.Pbs = some c → '/' ∉ c.projectID.data)
    (hslashT : ∀ e ∈ config.EventToTopicMap, '/' ∉ (stringAt e "to").data)
    (hmsg : (jsonData.Get "message").Value ≠ GoValue.nil)
    (hmar : jsonMarshal D (jsonData.Get "message").Value = Except.ok value)
    (htid : jsonData.Get "topicId" = some (JSON.str tid)) (hne : tid ≠ "")
    (hdiff : ∀ e ∈ config.EventToTopicMap, stringAt e "to" ≠ tid) :
    ∃ o, Produce D jsonData (Handle.pubsubClient (some p)) = Run.ret o ∧
      o.triple = (400, "Failure", "[GooglePubSub] error :: Topic not found in project") ∧
      containsText o.responseMessage "Topic not found in project" ∧
      o.published = [] ∧ o.producer = Handle.pubsubClient (some p) := by
  have hunf := produce_searches D jsonData p value tid hmsg hmar (value_str _ _ _ htid) hne
  have hnone : topicSearch tid p.EventToTopic 0 = Run.ret none := by
    apply topicSearch_none
    intro s hs
    obtain ⟨cfg, hcfg, h1 | h2⟩ := newProducer_ok D _ p hnew
    · cases hcfg
      obtain ⟨c, _, _, _, hp⟩ := h1
      rw [hp] at hs
      obtain ⟨e, he, hse⟩ := List.mem_map.mp hs
      subst hse
      exact ⟨c.Topic (stringAt e "to"), stringAt e "to", ifaceAt_binding c e,
        split_topic_name_get3_plain c _ (hslashP c (by rw [hp])) (hslashT e he), hdiff e he⟩
    · rw [h2.2.2] at hs
      cases hs
  simp only [hnone] at hunf
  have hc : containsText "[GooglePubSub] error :: Topic not found in project"
      "Topic not found in project" := by decide
  exact ⟨_, hunf, rfl, hc, rfl, rfl⟩

/-- Witness for C9: `invoices` is not configured on `ordersProducer`. -/
theorem produce_topic_not_found_witness :
    ∃ o, Produce okDeps [("message", JSON.obj []), ("topicId", JSON.str "invoices")]
        (Handle.pubsubClient (some ordersProducer)) = Run.ret o ∧
      o.triple = (400, "Failure", "[GooglePubSub] error :: Topic not found in project") ∧
      containsText o.responseMessage "Topic not found in project" ∧
      o.published = [] ∧ o.producer = Handle.pubsubClient (some ordersProducer) :=
  produce_topic_not_found okDeps ordersConfig ordersProducer
    [("message", JSON.obj []), ("topicId", JSON.str "invoices")] "invoices" [123, 125]
    (by decide) (fun c hc => by cases hc; decide) (by decide) (fun h => by cases h) rfl rfl
    (by decide) (by decide)

/-- C9 (counterexample): the only configured topic name is `a/b`; the envelope
`{"message": {}, "topicId": "a"}` has a non-empty `topicId` that differs from
it, and `Produce` publishes to the topic `projects/p/topics/a/b` and returns
200 "Success": element 3 of the split of that resource name is `a`. -/
theorem produce_slash_segment_publishes :
    NewProducer okDeps (DestinationConfig.decoded slashConfig) = Run.ret (Except.ok slashProducer) ∧
    (∀ e ∈ slashConfig.EventToTopicMap, stringAt e "to" ≠ "a") ∧
    Produce okDeps [("message", JSON.obj []), ("topicId", JSON.str "a")]
        (Handle.pubsubClient (some slashProducer)) =
      Run.ret { statusCode := 200, respStatus := "Success"
                responseMessage := "Message publish with serverID1"
                producer := Handle.pubsubClient (some slashProducerUsed)
                published := [({ name := "projects/p/topics/a/b", DelayThreshold := 0 },
                  [123, 125])] } := by
  refine ⟨by decide, by decide, by decide⟩

/-! ## Lemmas on the topic search as a first-match search -/

theorem topicSearch_cons_topic (tid : String) (s : GoMap Iface) (rest : List (GoMap Iface))
    (k : Nat) (u : Topic) (hu : ifaceAt s "topic" = Iface.topic (some u)) :
    topicSearch tid (s :: rest) k =
      match (stringsSplit u.String '/').get? 3 with
      | none => Run.panic "index out of range [3]"
      | some seg => if seg = tid then Run.ret (some (k, u)) else topicSearch tid rest (k + 1) := by
  simp only [topicSearch, hu]

/-- Whatever the bindings, a topic found by the search is the first match. -/
theorem topicSearch_sound (tid : String) (l : List (GoMap Iface)) (k i : Nat) (t : Topic)
    (h : topicSearch tid l k = Run.ret (some (i, t))) :
    ∃ j, i = k + j ∧ IsFirstMatch tid l j t := by
  induction l generalizing k with
  | nil => simp [topicSearch] at h
  | cons s rest ih =>
    cases hs : ifaceAt s "topic" with
    | nil => simp [topicSearch, hs] at h
    | string x => simp [topicSearch, hs] at h
    | other => simp [topicSearch, hs] at h
    | topic o =>
      cases o with
      | none => simp [topicSearch, hs] at h
      | some u =>
        rw [topicSearch_cons_topic tid s rest k u hs] at h
        cases hg : (stringsSplit u.String '/').get? 3 with
        | none =>
          simp only [hg] at h
          cases h
        | some seg =>
          simp only [hg] at h
          by_cases hseg : seg = tid
          · rw [if_pos hseg] at h
            injection h with h
            injection h with h
            injection h with h1 h2
            subst h1 h2 hseg
            refine ⟨0, rfl, ⟨s, rfl, hs⟩, hg, ?_⟩
            intro j hj
            omega
          · rw [if_neg hseg] at h
            obtain ⟨j, hij, ⟨s1, hget, htop⟩, hmatch, hbefore⟩ := ih (k + 1) h
            refine ⟨j + 1, by omega, ⟨s1, by simpa using hget, htop⟩, hmatch, ?_⟩
            intro j0 hj0 s0 u0 hget0 htop0
            cases j0 with
            | zero =>
              simp only [List.get?_cons_zero, Option.some.injEq] at hget0
              subst hget0
              rw [hs] at htop0
              injection htop0 with htop0
              injection htop0 with htop0
              subst htop0
              rw [hg]
              intro hc
              injection hc with hc
              exact hseg hc
            | succ n =>
              simp only [List.get?_cons_succ] at hget0
              exact hbefore n (by omega) s0 u0 hget0 htop0

/-- On well-formed bindings the search finds the first match. -/
theorem topicSearch_complete (tid : String) (l : List (GoMap Iface)) (k j : Nat) (t : Topic)
    (hall : ∀ s ∈ l, ∃ u, ifaceAt s "topic" = Iface.topic (some u) ∧
      4 ≤ (stringsSplit u.String '/').length)
    (h : IsFirstMatch tid l j t) :
    topicSearch tid l k = Run.ret (some (k + j, t)) := by
  induction l generalizing k j with
  | nil =>
    obtain ⟨⟨s, hget, _⟩, _, _⟩ := h
    simp at hget
  | cons s rest ih =>
    obtain ⟨u, hu, hlen⟩ := hall s (List.mem_cons_self _ _)
    obtain ⟨⟨s1, hget, htop⟩, hmatch, hbefore⟩ := h
    rw [topicSearch_cons_topic tid s rest k u hu]
    cases hg : (stringsSplit u.String '/').get? 3 with
    | none =>
      rw [List.get?_eq_none] at hg
      omega
    | some seg =>
      simp only []
      cases j with
      | zero =>
        simp only [List.get?_cons_zero, Option.some.injEq] at hget
        subst hget
        rw [hu] at htop
        injection htop with htop
        injection htop with htop
        subst htop
        rw [hg] at hmatch
        injection hmatch with hmatch
        rw [if_pos hmatch]
        rfl
      | succ n =>
        have hne : seg ≠ tid := by
          intro hc
          exact hbefore 0 (by omega) s u rfl hu (by rw [hg, hc])
        rw [if_neg hne]
        simp only [List.get?_cons_succ] at hget
        have := ih (k + 1) n (fun s0 hs0 => hall s0 (List.mem_cons_of_mem _ hs0))
          ⟨⟨s1, hget, htop⟩, hmatch, fun j0 hj0 s0 u0 hg0 ht0 =>
            hbefore (j0 + 1) (by omega) s0 u0 (by simpa using hg0) ht0⟩
        rw [this]
        congr 3
        omega

/-! ## The paths of `Produce` -/

/-- Every run of `Produce` takes one of three paths: it returns a 400 "Failure"
triple without touching the producer or publishing; it panics; or it resolves
a topic, sets its delay threshold to 0, publishes once and reports the result
of that publish. -/
theorem produce_cases (D : Deps) (jsonData : Envelope) (producer : Handle) :
    (∃ msg, Produce D jsonData producer =
        Run.ret (Outcome.fail producer 400 "Failure" msg)) ∨
    (∃ m, Produce D jsonData producer = Run.panic m) ∨
    (∃ pbs value tid i t, producer = Handle.pubsubClient (some pbs) ∧
      (jsonData.Get "message").Value ≠ GoValue.nil ∧
      jsonMarshal D (jsonData.Get "message").Value = Except.ok value ∧
      (jsonData.Get "topicId").Value = GoValue.string tid ∧ tid ≠ "" ∧
      topicSearch tid pbs.EventToTopic 0 = Run.ret (some (i, t)) ∧
      ((∃ e, D.publish { t with DelayThreshold := 0 } value = Except.error e ∧
          Produce D jsonData producer = Run.ret
            { statusCode := getError e, respStatus := "Failure"
              responseMessage := "[GooglePubSub] error :: Failed to publish:" ++ e.text
              producer := Handle.pubsubClient
                (some { pbs with EventToTopic := setDelayAt 0 pbs.EventToTopic i })
              published := [({ t with DelayThreshold := 0 }, value)] }) ∨
       (∃ serverID, D.publish { t with DelayThreshold := 0 } value = Except.ok serverID ∧
          Produce D jsonData producer = Run.ret
            { statusCode := 200, respStatus := "Success"
              responseMessage := "Message publish with serverID" ++ serverID
              producer := Handle.pubsubClient
                (some { pbs with EventToTopic := setDelayAt 0 pbs.EventToTopic i })
              published := [({ t with DelayThreshold := 0 }, value)] }))) := by
  cases producer with
  | client c => exact Or.inl ⟨_, rfl⟩
  | other => exact Or.inl ⟨_, rfl⟩
  | pubsubClient q =>
    by_cases hmsg : (jsonData.Get "message").Value = GoValue.nil
    · exact Or.inl ⟨"[GooglePubSub] error :: message from payload not found",
        by simp only [Produce, hmsg]⟩
    · cases hmar : jsonMarshal D (jsonData.Get "message").Value with
      | error err =>
        refine Or.inl ⟨"[GooglePubSub] error  :: " ++ err.text, ?_⟩
        unfold Produce
        simp only []
        generalize (jsonData.Get "message").Value = v at hmsg hmar
        cases v with
        | nil => exact absurd rfl hmsg
        | _ => simp only [hmar]
      | ok value =>
        have hstep : ∀ r, (match (jsonData.Get "topicId").Value with
            | GoValue.nil =>
              Run.ret (Outcome.fail (Handle.pubsubClient q) 400 "Failure"
                "[GooglePubSub] error  :: Topic Id not found")
            | GoValue.string topicIdString =>
              if topicIdString = "" then
                Run.ret (Outcome.fail (Handle.pubsubClient q) 400 "Failure"
                  "[GooglePubSub] error :: empty topic id string")
              else
                match q with
                | none => Run.panic "invalid memory address or nil pointer dereference"
                | some pbs =>
                  match topicSearch topicIdString pbs.EventToTopic 0 with
                  | Run.panic msg => Run.panic msg
                  | Run.ret none =>
                    Run.ret (Outcome.fail (Handle.pubsubClient q) 400 "Failure"
                      "[GooglePubSub] error :: Topic not found in project")
                  | Run.ret (some (i, t)) =>
                    match D.publish { t with DelayThreshold := 0 } value with
                    | Except.error err =>
                      Run.ret { statusCode := getError err, respStatus := "Failure"
                                responseMessage :=
                                  "[GooglePubSub] error :: Failed to publish:" ++ err.text
                                producer := Handle.pubsubClient
                                  (some { pbs with EventToTopic := setDelayAt 0 pbs.EventToTopic i })
                                published := [({ t with DelayThreshold := 0 }, value)] }
                    | Except.ok serverID =>
                      Run.ret { statusCode := 200, respStatus := "Success"
                                responseMessage := "Message publish with serverID" ++ serverID
                                producer := Handle.pubsubClient
                                  (some { pbs with EventToTopic := setDelayAt 0 pbs.EventToTopic i })
                                published := [({ t with DelayThreshold := 0 }, value)] }
            | _ =>
              Run.ret (Outcome.fail (Handle.pubsubClient q) 400 "Failure"
                "[GooglePubSub] error :: Could not parse topic id to string")) = r →
            Produce D jsonData (Handle.pubsubClient q) = r := by
          intro r hr
          rw [← hr]
          unfold Produce
          simp only []
          generalize (jsonData.Get "message").Value = v at hmsg hmar
          cases v with
          | nil => exact absurd rfl hmsg
          | _ => simp only [hmar]
        cases htid : (jsonData.Get "topicId").Value with
        | nil =>
          exact Or.inl ⟨"[GooglePubSub] error  :: Topic Id not found",
            hstep _ (by simp only [htid])⟩
        | bool b =>
          exact Or.inl ⟨"[GooglePubSub] error :: Could not parse topic id to string",
            hstep _ (by simp only [htid])⟩
        | float64 f =>
          exact Or.inl ⟨"[GooglePubSub] error :: Could not parse topic id to string",
            hstep _ (by simp only [htid])⟩
        | slice xs =>
          exact Or.inl ⟨"[GooglePubSub] error :: Could not parse topic id to string",
            hstep _ (by simp only [htid])⟩
        | map ms =>
          exact Or.inl ⟨"[GooglePubSub] error :: Could not parse topic id to string",
            hstep _ (by simp only [htid])⟩
        | string tid =>
          by_cases hne : tid = ""
          · exact Or.inl ⟨"[GooglePubSub] error :: empty topic id string",
              hstep _ (by simp only [htid, hne, if_true])⟩
          · cases q with
            | none =>
              exact Or.inr (Or.inl ⟨"invalid memory address or nil pointer dereference",
                hstep _ (by simp only [htid, hne, if_false])⟩)
            | some pbs =>
              cases hfind : topicSearch tid pbs.EventToTopic 0 with
              | panic m =>
                exact Or.inr (Or.inl ⟨m, hstep _ (by simp only [htid, hne, if_false, hfind])⟩)
              | ret found =>
                cases found with
                | none =>
                  exact Or.inl ⟨"[GooglePubSub] error :: Topic not found in project",
                    hstep _ (by simp only [htid, hne, if_false, hfind])⟩
                | some it =>
                  obtain ⟨i, t⟩ := it
                  refine Or.inr (Or.inr ⟨pbs, value, tid, i, t, rfl, hmsg, rfl, rfl, hne, hfind, ?_⟩)
                  cases hpub : D.publish { t with DelayThreshold := 0 } value with
                  | error e =>
                    exact Or.inl ⟨e, rfl,
                      hstep _ (by simp only [htid, hne, if_false, hfind, hpub])⟩
                  | ok serverID =>
                    exact Or.inr ⟨serverID, rfl,
                      hstep _ (by simp only [htid, hne, if_false, hfind, hpub])⟩

/-! ## The claims on topic ids and on construction -/

/-- Unfolding of `Produce` on a `*pubsubClient` handle, nil or not, once the
`message` is found and serialised, for a `topicId` that is not a non-empty
string. -/
theorem produce_topic_checks (D : Deps) (jsonData : Envelope) (q : Option pubsubClient)
    (value : Bytes)
    (hmsg : (jsonData.Get "message").Value ≠ GoValue.nil)
    (hmar : jsonMarshal D (jsonData.Get "message").Value = Except.ok value)
    (hnot : ∀ tid, (jsonData.Get "topicId").Value = GoValue.string tid → tid = "") :
    Produce D jsonData (Handle.pubsubClient q) =
      match (jsonData.Get "topicId").Value with
      | GoValue.nil =>
        Run.ret (Outcome.fail (Handle.pubsubClient q) 400 "Failure"
          "[GooglePubSub] error  :: Topic Id not found")
      | GoValue.string _ =>
        Run.ret (Outcome.fail (Handle.pubsubClient q) 400 "Failure"
          "[GooglePubSub] error :: empty topic id string")
      | _ =>
        Run.ret (Outcome.fail (Handle.pubsubClient q) 400 "Failure"
          "[GooglePubSub] error :: Could not parse topic id to string") := by
  unfold Produce
  simp only []
  generalize (jsonData.Get "message").Value = v at hmsg hmar
  cases v with
  | nil => exact absurd rfl hmsg
  | _ =>
    simp only [hmar]
    cases htid : (jsonData.Get "topicId").Value with
    | string tid => simp only [hnot tid htid, if_true]
    | _ => rfl

/-- C11 (amended): for every handle of type `*pubsubClient` and every envelope
whose non-null `message` serialises and whose `topicId` field is present with
a value that is a number, a boolean, an array or an object (not null, not a
string), `Produce` returns
`(400, "Failure", "[GooglePubSub] error :: Could not parse topic id to string")`. -/
theorem produce_topic_id_not_string (D : Deps) (jsonData : Envelope) (q : Option pubsubClient)
    (value : Bytes) (v : JSON)
    (hmsg : (jsonData.Get "message").Value ≠ GoValue.nil)
    (hmar : jsonMarshal D (jsonData.Get "message").Value = Except.ok value)
    (htid : jsonData.Get "topicId" = some v) (hnull : v ≠ JSON.null)
    (hstr : ∀ s, v ≠ JSON.str s) :
    Produce D jsonData (Handle.pubsubClient q) =
        Run.ret (Outcome.fail (Handle.pubsubClient q) 400 "Failure"
          "[GooglePubSub] error :: Could not parse topic id to string") ∧
      containsText "[GooglePubSub] error :: Could not parse topic id to string"
        "Could not parse topic id to string" := by
  refine ⟨?_, by decide⟩
  have hnot : ∀ tid, (jsonData.Get "topicId").Value = GoValue.string tid → tid = "" := by
    intro tid h
    rw [htid] at h
    cases v with
    | str s => exact absurd rfl (hstr s)
    | _ => cases h
  rw [produce_topic_checks D jsonData q value hmsg hmar hnot, htid]
  cases v with
  | null => exact absurd rfl hnull
  | str s => exact absurd rfl (hstr s)
  | _ => rfl

/-- Witness for C11: the envelope `{"message": {}, "topicId": 7}`. -/
theorem produce_topic_id_not_string_witness :
    Produce okDeps numberTopicEnvelope (Handle.pubsubClient (some ordersProducer)) =
        Run.ret (Outcome.fail (Handle.pubsubClient (some ordersProducer)) 400 "Failure"
          "[GooglePubSub] error :: Could not parse topic id to string") ∧
      containsText "[GooglePubSub] error :: Could not parse topic id to string"
        "Could not parse topic id to string" :=
  produce_topic_id_not_string okDeps numberTopicEnvelope (some ordersProducer) [123, 125]
    (JSON.num (Float64.finite "7")) (fun h => by cases h) rfl rfl (fun h => by cases h)
    (fun s h => by cases h)

/-- C11 (counterexample): in the envelope `{"message": {}, "topicId": null}` the
`topicId` field is present with the non-string value null; `Value()` is nil for
it, the test of line 86 takes the else branch and `Produce` answers
"Topic Id not found", not "Could not parse topic id to string". -/
theorem produce_null_topic_id :
    nullTopicEnvelope.Get "topicId" = some JSON.null ∧
    Produce okDeps nullTopicEnvelope (Handle.pubsubClient (some ordersProducer)) =
      Run.ret (Outcome.fail (Handle.pubsubClient (some ordersProducer)) 400 "Failure"
        "[GooglePubSub] error  :: Topic Id not found") ∧
    ¬ containsText "[GooglePubSub] error  :: Topic Id not found"
        "Could not parse topic id to string" := by
  refine ⟨rfl, by decide, by decide⟩

/-- C12 (amended): for every handle of type `*pubsubClient`, whatever its
bindings, and every envelope whose non-null `message` serialises and that has
no `topicId` field, `Produce` returns
`(400, "Failure", "[GooglePubSub] error  :: Topic Id not found")`, publishes
nothing and leaves the producer as it was: there is no lookup by event name. -/
theorem produce_topic_id_absent (D : Deps) (jsonData : Envelope) (q : Option pubsubClient)
    (value : Bytes)
    (hmsg : (jsonData.Get "message").Value ≠ GoValue.nil)
    (hmar : jsonMarshal D (jsonData.Get "message").Value = Except.ok value)
    (htid : jsonData.Get "topicId" = none) :
    ∃ o, Produce D jsonData (Handle.pubsubClient q) = Run.ret o ∧
      o.triple = (400, "Failure", "[GooglePubSub] error  :: Topic Id not found") ∧
      o.published = [] ∧ o.producer = Handle.pubsubClient q := by
  have hnot : ∀ tid, (jsonData.Get "topicId").Value = GoValue.string tid → tid = "" := by
    intro tid h
    rw [htid] at h
    cases h
  have h := produce_topic_checks D jsonData q value hmsg hmar hnot
  rw [htid] at h
  exact ⟨_, h, rfl, rfl, rfl⟩

/-- Witness for C12: the envelope `{"message": {}}` on a producer with two
bindings. -/
theorem produce_topic_id_absent_witness :
    ∃ o, Produce okDeps noTopicEnvelope (Handle.pubsubClient (some twinProducer)) = Run.ret o ∧
      o.triple = (400, "Failure", "[GooglePubSub] error  :: Topic Id not found") ∧
      o.published = [] ∧ o.producer = Handle.pubsubClient (some twinProducer) :=
  produce_topic_id_absent okDeps noTopicEnvelope (some twinProducer) [123, 125]
    (fun h => by cases h) rfl rfl

/-- C12 (counterexample): the envelope `{"message": 1e999}` has a non-null
`message` and no `topicId`; `json.Marshal` rejects +Inf before the topic id is
looked for, and the message returned is the serialisation error. -/
theorem produce_topic_id_absent_unserialisable :
    infNoTopicEnvelope.Get "message" = some (JSON.num Float64.posInf) ∧
    infNoTopicEnvelope.Get "topicId" = none ∧
    Produce okDeps infNoTopicEnvelope (Handle.pubsubClient (some ordersProducer)) =
      Run.ret (Outcome.fail (Handle.pubsubClient (some ordersProducer)) 400 "Failure"
        "[GooglePubSub] error  :: json: unsupported value: +Inf") ∧
    ("[GooglePubSub] error  :: json: unsupported value: +Inf" : String) ≠
      "[GooglePubSub] error  :: Topic Id not found" := by
  refine ⟨rfl, rfl, by decide, by decide⟩

/-- C13: when credentials and project id are non-empty and `pubsub.NewClient`
succeeds with client `c`, `NewProducer` returns a producer owning `c` whose
binding list has the length of `eventToTopicMap`; binding `i` has the `from` of
entry `i` as its event and `c.Topic` of the entry's `to` as its topic. -/
theorem newProducer_bindings (D : Deps) (config : Config) (c : Client)
    (hcred : config.Credentials ≠ "") (hproj : config.ProjectId ≠ "")
    (hclient : D.newClient config.ProjectId config.Credentials = Except.ok c) :
    ∃ p, NewProducer D (DestinationConfig.decoded config) = Run.ret (Except.ok p) ∧
      p.Pbs = some c ∧ p.EventToTopic.length = config.EventToTopicMap.length ∧
      ∀ i s, config.EventToTopicMap.get? i = some s →
        ∃ b, p.EventToTopic.get? i = some b ∧
          ifaceAt b "event" = Iface.string (stringAt s "from") ∧
          ifaceAt b "topic" = Iface.topic (some (c.Topic (stringAt s "to"))) := by
  refine ⟨{ Pbs := some c, EventToTopic := config.EventToTopicMap.map (binding c) }, ?_, rfl,
    by simp, ?_⟩
  · unfold NewProducer
    simp only []
    rw [if_pos ⟨hcred, hproj⟩, hclient]
    simp only [bindTopics_some]
  · intro i s hs
    refine ⟨binding c s, ?_, ?_, ifaceAt_binding c s⟩
    · rw [List.get?_eq_getElem?] at hs ⊢
      rw [List.getElem?_map, hs]
      rfl
    · simp [ifaceAt, binding, GoMap.get?]

/-- Witness for C13: `twinConfig`, two entries with the same topic name. -/
theorem newProducer_bindings_witness :
    ∃ p, NewProducer okDeps (DestinationConfig.decoded twinConfig) = Run.ret (Except.ok p) ∧
      p.Pbs = some { projectID := "p", defaultDelay := 10000000 } ∧
      p.EventToTopic.length = twinConfig.EventToTopicMap.length ∧
      ∀ i s, twinConfig.EventToTopicMap.get? i = some s →
        ∃ b, p.EventToTopic.get? i = some b ∧
          ifaceAt b "event" = Iface.string (stringAt s "from") ∧
          ifaceAt b "topic" = Iface.topic
            (some (Client.Topic { projectID := "p", defaultDelay := 10000000 } (stringAt s "to"))) :=
  newProducer_bindings okDeps twinConfig { projectID := "p", defaultDelay := 10000000 }
    (by decide) (by decide) rfl

/-! ## The claims on the published message and on the returned status -/

/-- C14: on a non-nil producer, for an envelope whose `topicId` is the
non-empty string `tid`: whenever `Produce` publishes, it publishes once, the
serialised `message`, to the topic of the binding of least index whose
resource name has `tid` as element 3 of its split at `/`, and it is that
binding whose delay threshold is set to 0, never a later one. Conversely, when
the non-null `message` serialises and the bindings are well formed (as on every
producer `NewProducer` returns), `Produce` does publish to that binding
whenever there is one. -/
theorem produce_first_match (D : Deps) (jsonData : Envelope) (pbs : pubsubClient)
    (tid : String)
    (htid : jsonData.Get "topicId" = some (JSON.str tid)) (hne : tid ≠ "") :
    (∀ o, Produce D jsonData (Handle.pubsubClient (some pbs)) = Run.ret o →
      ∀ pub ∈ o.published, ∃ i t value, IsFirstMatch tid pbs.EventToTopic i t ∧
        jsonMarshal D (jsonData.Get "message").Value = Except.ok value ∧
        pub = ({ t with DelayThreshold := 0 }, value) ∧ o.published = [pub] ∧
        o.producer = Handle.pubsubClient
          (some { pbs with EventToTopic := setDelayAt 0 pbs.EventToTopic i })) ∧
    (∀ value, (jsonData.Get "message").Value ≠ GoValue.nil →
      jsonMarshal D (jsonData.Get "message").Value = Except.ok value → WellBound pbs →
      ∀ i t, IsFirstMatch tid pbs.EventToTopic i t →
      ∃ o, Produce D jsonData (Handle.pubsubClient (some pbs)) = Run.ret o ∧
        o.published = [({ t with DelayThreshold := 0 }, value)] ∧
        o.producer = Handle.pubsubClient
          (some { pbs with EventToTopic := setDelayAt 0 pbs.EventToTopic i })) := by
  constructor
  · intro o ho pub hpub
    rcases produce_cases D jsonData (Handle.pubsubClient (some pbs)) with ⟨msg, h⟩ | ⟨m, h⟩ |
      ⟨pbs1, value, tid1, i, t, hp, _, hmar, htid1, _, hfind, hres⟩
    · rw [h] at ho
      cases ho
      cases hpub
    · rw [h] at ho
      cases ho
    · cases hp
      rw [value_str _ _ _ htid] at htid1
      cases htid1
      obtain ⟨j, hij, hfirst⟩ := topicSearch_sound tid pbs.EventToTopic 0 i t hfind
      have hji : j = i := by omega
      subst hji
      rcases hres with ⟨e, _, h⟩ | ⟨sid, _, h⟩
      · rw [h] at ho
        cases ho
        simp only [List.mem_singleton] at hpub
        subst hpub
        exact ⟨j, t, value, hfirst, hmar, rfl, rfl, rfl⟩
      · rw [h] at ho
        cases ho
        simp only [List.mem_singleton] at hpub
        subst hpub
        exact ⟨j, t, value, hfirst, hmar, rfl, rfl, rfl⟩
  · intro value hmsg hmar hwb i t hfirst
    have hunf := produce_searches D jsonData pbs value tid hmsg hmar (value_str _ _ _ htid) hne
    have hfind := topicSearch_complete tid pbs.EventToTopic 0 i t hwb hfirst
    rw [Nat.zero_add] at hfind
    simp only [hfind] at hunf
    cases hp : D.publish { t with DelayThreshold := 0 } value with
    | error e =>
      simp only [hp] at hunf
      exact ⟨_, hunf, rfl, rfl⟩
    | ok serverID =>
      simp only [hp] at hunf
      exact ⟨_, hunf, rfl, rfl⟩

/-- Witness for C14: both bindings of `twinProducer` match `orders`. -/
theorem produce_first_match_witness :
    (∀ o, Produce okDeps ordersEnvelope (Handle.pubsubClient (some twinProducer)) = Run.ret o →
      ∀ pub ∈ o.published, ∃ i t value, IsFirstMatch "orders" twinProducer.EventToTopic i t ∧
        jsonMarshal okDeps (ordersEnvelope.Get "message").Value = Except.ok value ∧
        pub = ({ t with DelayThreshold := 0 }, value) ∧ o.published = [pub] ∧
        o.producer = Handle.pubsubClient
          (some { twinProducer with EventToTopic := setDelayAt 0 twinProducer.EventToTopic i })) ∧
    (∀ value, (ordersEnvelope.Get "message").Value ≠ GoValue.nil →
      jsonMarshal okDeps (ordersEnvelope.Get "message").Value = Except.ok value →
      WellBound twinProducer →
      ∀ i t, IsFirstMatch "orders" twinProducer.EventToTopic i t →
      ∃ o, Produce okDeps ordersEnvelope (Handle.pubsubClient (some twinProducer)) = Run.ret o ∧
        o.published = [({ t with DelayThreshold := 0 }, value)] ∧
        o.producer = Handle.pubsubClient
          (some { twinProducer with EventToTopic := setDelayAt 0 twinProducer.EventToTopic i })) :=
  produce_first_match okDeps ordersEnvelope twinProducer "orders" rfl (by decide)

theorem ite_ne_200 (c : Prop) [Decidable c] (a b : Int) (ha : a ≠ 200) (hb : b ≠ 200) :
    (if c then a else b) ≠ 200 := by
  split <;> assumption

theorem getError_ne_200 (e : GoError) : getError e ≠ 200 := by
  unfold getError
  dsimp only
  repeat' apply ite_ne_200
  all_goals decide

/-- C15 (amended): every run of `Produce` calls `Topic.Publish` at most once.
It calls it exactly when the handle is a non-nil `*pubsubClient`, `message` is
non-null and serialises, `topicId` is a non-empty string and the topic search
finds a binding (the first match); the data of the message is then the
serialisation of the `message` value. On every other path (a failed check, or a panic in the
search) nothing is published. -/
theorem produce_publishes_once (D : Deps) (jsonData : Envelope) (producer : Handle) :
    (publishedBy (Produce D jsonData producer)).length ≤ 1 ∧
    (publishedBy (Produce D jsonData producer) ≠ [] ↔
      ∃ pbs value tid i t, producer = Handle.pubsubClient (some pbs) ∧
        (jsonData.Get "message").Value ≠ GoValue.nil ∧
        jsonMarshal D (jsonData.Get "message").Value = Except.ok value ∧
        (jsonData.Get "topicId").Value = GoValue.string tid ∧ tid ≠ "" ∧
        topicSearch tid pbs.EventToTopic 0 = Run.ret (some (i, t)) ∧
        IsFirstMatch tid pbs.EventToTopic i t) ∧
    (∀ pub ∈ publishedBy (Produce D jsonData producer),
      jsonMarshal D (jsonData.Get "message").Value = Except.ok pub.2) := by
  rcases produce_cases D jsonData producer with ⟨msg, h⟩ | ⟨m, h⟩ |
    ⟨pbs, value, tid, i, t, hp, hmsg, hmar, htid, hne, hfind, hres⟩
  · have hnone : ¬ ∃ pbs value tid i t, producer = Handle.pubsubClient (some pbs) ∧
        (jsonData.Get "message").Value ≠ GoValue.nil ∧
        jsonMarshal D (jsonData.Get "message").Value = Except.ok value ∧
        (jsonData.Get "topicId").Value = GoValue.string tid ∧ tid ≠ "" ∧
        topicSearch tid pbs.EventToTopic 0 = Run.ret (some (i, t)) ∧
        IsFirstMatch tid pbs.EventToTopic i t := by
      rintro ⟨pbs, value, tid, i, t, hp, hmsg, hmar, htid, hne, hfind, _⟩
      subst hp
      have hunf := produce_searches D jsonData pbs value tid hmsg hmar htid hne
      simp only [hfind] at hunf
      rw [h] at hunf
      have hpubs := congrArg publishedBy hunf
      cases hp : D.publish { t with DelayThreshold := 0 } value with
      | error e => simp [hp, publishedBy, Outcome.fail] at hpubs
      | ok serverID => simp [hp, publishedBy, Outcome.fail] at hpubs
    rw [h]
    exact ⟨by simp [publishedBy, Outcome.fail], ⟨fun hc => absurd rfl hc, fun hc => absurd hc hnone⟩,
      fun pub hpub => by cases hpub⟩
  · have hnone : ¬ ∃ pbs value tid i t, producer = Handle.pubsubClient (some pbs) ∧
        (jsonData.Get "message").Value ≠ GoValue.nil ∧
        jsonMarshal D (jsonData.Get "message").Value = Except.ok value ∧
        (jsonData.Get "topicId").Value = GoValue.string tid ∧ tid ≠ "" ∧
        topicSearch tid pbs.EventToTopic 0 = Run.ret (some (i, t)) ∧
        IsFirstMatch tid pbs.EventToTopic i t := by
      rintro ⟨pbs, value, tid, i, t, hp, hmsg, hmar, htid, hne, hfind, _⟩
      subst hp
      have hunf := produce_searches D jsonData pbs value tid hmsg hmar htid hne
      simp only [hfind] at hunf
      rw [h] at hunf
      have hpubs := congrArg publishedBy hunf
      cases hp : D.publish { t with DelayThreshold := 0 } value with
      | error e => simp [hp, publishedBy, Outcome.fail] at hpubs
      | ok serverID => simp [hp, publishedBy, Outcome.fail] at hpubs
    rw [h]
    exact ⟨by simp [publishedBy], ⟨fun hc => absurd rfl hc, fun hc => absurd hc hnone⟩,
      fun pub hpub => by cases hpub⟩
  · have hpubs : publishedBy (Produce D jsonData producer) =
        [({ t with DelayThreshold := 0 }, value)] := by
      rcases hres with ⟨e, _, h⟩ | ⟨sid, _, h⟩ <;> rw [h] <;> rfl
    rw [hpubs]
    have hfirst : IsFirstMatch tid pbs.EventToTopic i t := by
      obtain ⟨j, hij, hf⟩ := topicSearch_sound tid pbs.EventToTopic 0 i t hfind
      have hji : j = i := by omega
      subst hji
      exact hf
    refine ⟨by simp, ⟨fun _ => ⟨pbs, value, tid, i, t, hp, hmsg, hmar, htid, hne, hfind, hfirst⟩,
      fun _ => by simp⟩, ?_⟩
    intro pub hpub
    simp only [List.mem_singleton] at hpub
    subst hpub
    exact hmar

/-- C15 (counterexample): for `{"message": 1e999, "topicId": "orders"}` on the
producer bound to `orders` the handle is of the expected type, `message` is
non-null, `topicId` is a non-empty string and binding 0 matches, and `Produce`
publishes nothing: the value does not serialise. -/
theorem produce_unserialisable_not_published :
    infOrdersEnvelope.Get "message" = some (JSON.num Float64.posInf) ∧
    infOrdersEnvelope.Get "topicId" = some (JSON.str "orders") ∧
    topicSearch "orders" ordersProducer.EventToTopic 0 =
      Run.ret (some (0, { name := "projects/p/topics/orders", DelayThreshold := 10000000 })) ∧
    Produce okDeps infOrdersEnvelope (Handle.pubsubClient (some ordersProducer)) =
      Run.ret (Outcome.fail (Handle.pubsubClient (some ordersProducer)) 400 "Failure"
        "[GooglePubSub] error  :: json: unsupported value: +Inf") ∧
    publishedBy (Produce okDeps infOrdersEnvelope (Handle.pubsubClient (some ordersProducer))) = [] := by
  refine ⟨rfl, rfl, by decide, by decide, by decide⟩

/-- C16: the status of every outcome `Produce` returns is "Success" or
"Failure", and it is "Success" exactly when the code is 200: `getError` never
gives 200, whatever the error of the messaging client. -/
theorem produce_status (D : Deps) (jsonData : Envelope) (producer : Handle) (o : Outcome)
    (hret : Produce D jsonData producer = Run.ret o) :
    (o.respStatus = "Success" ∨ o.respStatus = "Failure") ∧
    (o.respStatus = "Success" ↔ o.statusCode = 200) := by
  rcases produce_cases D jsonData producer with ⟨msg, h⟩ | ⟨m, h⟩ |
    ⟨pbs, value, tid, i, t, _, _, _, _, _, _, ⟨e, _, h⟩ | ⟨sid, _, h⟩⟩
  · rw [h] at hret
    cases hret
    exact ⟨Or.inr rfl, by simp [Outcome.fail]⟩
  · rw [h] at hret
    cases hret
  · rw [h] at hret
    cases hret
    refine ⟨Or.inr rfl, ?_⟩
    have := getError_ne_200 e
    simp [this]
  · rw [h] at hret
    cases hret
    exact ⟨Or.inl rfl, by simp⟩

/-- Witness for C16: the publish of `ordersEnvelope` refused with
`ResourceExhausted` gives code 429 and status "Failure". -/
theorem produce_status_witness :
    Produce busyDeps ordersEnvelope (Handle.pubsubClient (some ordersProducer)) =
      Run.ret ordersBusyOutcome ∧
    (ordersBusyOutcome.respStatus = "Success" ∨ ordersBusyOutcome.respStatus = "Failure") ∧
    (ordersBusyOutcome.respStatus = "Success" ↔ ordersBusyOutcome.statusCode = 200) :=
  ⟨by decide,
    produce_status busyDeps ordersEnvelope (Handle.pubsubClient (some ordersProducer))
      ordersBusyOutcome (by decide)⟩

/-! ## The claim on the producer state -/

theorem get?_cons {β : Type} (k1 : String) (v1 : β) (rest : GoMap β) (k : String) :
    GoMap.get? ((k1, v1) :: rest) k = if k1 = k then some v1 else GoMap.get? rest k := rfl

theorem set_cons {β : Type} (k1 : String) (v1 : β) (rest : GoMap β) (k0 : String) (v : β) :
    GoMap.set ((k1, v1) :: rest) k0 v =
      if k1 = k0 then (k0, v) :: rest else (k1, v1) :: GoMap.set rest k0 v := rfl

theorem get?_set_other {β : Type} (m : GoMap β) (k0 k : String) (v : β) (h : k ≠ k0) :
    GoMap.get? (GoMap.set m k0 v) k = GoMap.get? m k := by
  have h2 : ¬ k0 = k := fun e => h e.symm
  induction m with
  | nil =>
    show GoMap.get? [(k0, v)] k = none
    rw [get?_cons, if_neg h2]
    rfl
  | cons kv rest ih =>
    obtain ⟨k1, v1⟩ := kv
    rw [set_cons]
    by_cases h1 : k1 = k0
    · have h3 : ¬ k1 = k := fun e => h (by rw [← e, h1])
      rw [if_pos h1, get?_cons, if_neg h2, get?_cons, if_neg h3]
    · rw [if_neg h1, get?_cons, get?_cons, ih]

theorem length_setDelayAt (d : Nat) (l : List (GoMap Iface)) (i : Nat) :
    (setDelayAt d l i).length = l.length := by
  induction l generalizing i with
  | nil => rfl
  | cons s rest ih =>
    cases i with
    | zero => simp only [setDelayAt]; split <;> rfl
    | succ n => simp only [setDelayAt, List.length_cons, ih]

theorem setDelayAt_get?_ne (d : Nat) (l : List (GoMap Iface)) (i j : Nat) (h : j ≠ i) :
    (setDelayAt d l i).get? j = l.get? j := by
  induction l generalizing i j with
  | nil => rfl
  | cons s rest ih =>
    cases i with
    | zero =>
      cases j with
      | zero => exact absurd rfl h
      | succ m => simp only [setDelayAt]; split <;> rfl
    | succ n =>
      cases j with
      | zero => rfl
      | succ m =>
        simp only [setDelayAt, List.get?_cons_succ]
        exact ih n m (fun e => h (by rw [e]))

theorem setDelayAt_get?_eq (d : Nat) (l : List (GoMap Iface)) (i : Nat) (s : GoMap Iface)
    (t : Topic) (hs : l.get? i = some s) (ht : ifaceAt s "topic" = Iface.topic (some t)) :
    (setDelayAt d l i).get? i =
      some (GoMap.set s "topic" (Iface.topic (some { t with DelayThreshold := d }))) := by
  induction l generalizing i with
  | nil => simp at hs
  | cons s0 rest ih =>
    cases i with
    | zero =>
      simp only [List.get?_cons_zero, Option.some.injEq] at hs
      subst hs
      simp only [setDelayAt, ht, List.get?_cons_zero]
    | succ n =>
      simp only [List.get?_cons_succ] at hs
      simp only [setDelayAt, List.get?_cons_succ]
      exact ih n hs

/-- C17: every outcome of `Produce` either leaves the handle exactly as it was
and publishes nothing, or comes from the path where the search resolved the
first matching binding `i`: then the client is the same, the binding list has
the same length, every binding but `i` is the same, and binding `i` differs
only in its `"topic"` entry, which is the resolved topic with its delay
threshold set to 0 (same resource name, same event). -/
theorem produce_frame (D : Deps) (jsonData : Envelope) (producer : Handle) (o : Outcome)
    (hret : Produce D jsonData producer = Run.ret o) :
    (o.producer = producer ∧ o.published = []) ∨
    (∃ pbs pbs1 tid i t value, producer = Handle.pubsubClient (some pbs) ∧
      o.producer = Handle.pubsubClient (some pbs1) ∧
      IsFirstMatch tid pbs.EventToTopic i t ∧
      o.published = [({ t with DelayThreshold := 0 }, value)] ∧
      pbs1.Pbs = pbs.Pbs ∧ pbs1.EventToTopic.length = pbs.EventToTopic.length ∧
      ∀ j s, pbs.EventToTopic.get? j = some s →
        ∃ s1, pbs1.EventToTopic.get? j = some s1 ∧
          (∀ k, k ≠ "topic" → GoMap.get? s1 k = GoMap.get? s k) ∧
          (j ≠ i → s1 = s) ∧
          (j = i → ifaceAt s1 "topic" = Iface.topic (some { t with DelayThreshold := 0 }))) := by
  rcases produce_cases D jsonData producer with ⟨msg, h⟩ | ⟨m, h⟩ |
    ⟨pbs, value, tid, i, t, hp, _, _, _, _, hfind, hres⟩
  · rw [h] at hret
    cases hret
    exact Or.inl ⟨rfl, rfl⟩
  · rw [h] at hret
    cases hret
  · right
    obtain ⟨j0, hj0, hfirst⟩ := topicSearch_sound tid pbs.EventToTopic 0 i t hfind
    have hji : j0 = i := by omega
    subst hji
    have hprod : o.producer = Handle.pubsubClient
          (some { pbs with EventToTopic := setDelayAt 0 pbs.EventToTopic j0 }) ∧
        o.published = [({ t with DelayThreshold := 0 }, value)] := by
      rcases hres with ⟨e, _, h⟩ | ⟨sid, _, h⟩
      · rw [h] at hret
        cases hret
        exact ⟨rfl, rfl⟩
      · rw [h] at hret
        cases hret
        exact ⟨rfl, rfl⟩
    refine ⟨pbs, { pbs with EventToTopic := setDelayAt 0 pbs.EventToTopic j0 }, tid, j0, t, value,
      hp, hprod.1, hfirst, hprod.2, rfl, length_setDelayAt 0 _ _, ?_⟩
    intro j s hs
    by_cases hj : j = j0
    · subst hj
      obtain ⟨⟨s0, hs0, ht0⟩, _, _⟩ := hfirst
      rw [hs] at hs0
      injection hs0 with hs0
      subst hs0
      refine ⟨_, setDelayAt_get?_eq 0 _ j s t hs ht0, ?_, fun hc => absurd rfl hc, fun _ => ?_⟩
      · intro k hk
        exact get?_set_other s "topic" k _ hk
      · simp only [ifaceAt, get?_set_same, Option.getD_some]
    · refine ⟨s, ?_, fun _ _ => rfl, fun _ => rfl, fun hc => absurd hc hj⟩
      rw [setDelayAt_get?_ne 0 _ j0 j hj]
      exact hs

/-- Witness for C17: the publish of `ordersEnvelope` on `twinProducer`, whose
two bindings both match; only binding 0 is written. -/
theorem produce_frame_witness :
    Produce okDeps ordersEnvelope (Handle.pubsubClient (some twinProducer)) = Run.ret twinOutcome ∧
    ((twinOutcome.producer = Handle.pubsubClient (some twinProducer) ∧ twinOutcome.published = []) ∨
    (∃ pbs pbs1 tid i t value, Handle.pubsubClient (some twinProducer) =
        Handle.pubsubClient (some pbs) ∧
      twinOutcome.producer = Handle.pubsubClient (some pbs1) ∧
      IsFirstMatch tid pbs.EventToTopic i t ∧
      twinOutcome.published = [({ t with DelayThreshold := 0 }, value)] ∧
      pbs1.Pbs = pbs.Pbs ∧ pbs1.EventToTopic.length = pbs.EventToTopic.length ∧
      ∀ j s, pbs.EventToTopic.get? j = some s →
        ∃ s1, pbs1.EventToTopic.get? j = some s1 ∧
          (∀ k, k ≠ "topic" → GoMap.get? s1 k = GoMap.get? s k) ∧
          (j ≠ i → s1 = s) ∧
          (j = i → ifaceAt s1 "topic" = Iface.topic (some { t with DelayThreshold := 0 })))) :=
  ⟨by decide,
    produce_frame okDeps ordersEnvelope (Handle.pubsubClient (some twinProducer)) twinOutcome
      (by decide)⟩

end GooglePubSub
